import Mathlib

/-!
Verification of the `godevmath` Monte Carlo availability estimator
(`src/main.rs`).  The Rust program is shallowly embedded: machine
integers (`u32`, `u64`) hold values far below their overflow bounds here,
so they are modelled by `ℕ`; the thread-local random generator is
modelled by an explicit stream `ℕ → ℕ` of raw draws, with
`gen_range(0..n)` rendered as `stream pos % n`; the unbounded rejection
loop of the schedule generator is rendered with explicit fuel returning
`Option`; iterator `peekable` cursors over sorted arrays become `List ℕ`
with `head?`/`tail`.
-/

namespace Godevmath

/-- `YEAR_TIME` constant from the source (minutes in a year). -/
def YEAR_TIME : ℕ := 365 * 24 * 60

/-- `UNAVAILABLE_TIME_AFTER_BAD` constant from the source. -/
def UNAVAILABLE_TIME_AFTER_BAD : ℕ := 9

/-- `TIME_TO_B_CACHE` constant from the source. -/
def TIME_TO_B_CACHE : ℕ := 30

/-- `TIME_TO_C_CACHE` constant from the source. -/
def TIME_TO_C_CACHE : ℕ := 40

/-- `RELEASE_COUNT` constant from the source. -/
def RELEASE_COUNT : ℕ := 30

/-- `BAD_RELEASE_COUNT` constant from the source. -/
def BAD_RELEASE_COUNT : ℕ := 3

/-- `MIN_TIME_BETWEEN_RELEASES` constant from the source. -/
def MIN_TIME_BETWEEN_RELEASES : ℕ := 60

/-- `EXPERIMENT_COUNT` constant from the source. -/
def EXPERIMENT_COUNT : ℕ := 10000000

/-- Embedding of `fn is_now_available` (src/main.rs lines 185-195):
the system is up iff A's outage timer is unset, and B's outage timer or
B's cache-cold timer is unset, and likewise for C. -/
def is_now_available (a_available_in b_available_in c_available_in
    b_cache_full_in c_cache_full_in : Option ℕ) : Bool :=
  a_available_in.isNone
    && (b_available_in.isNone || b_cache_full_in.isNone)
    && (c_available_in.isNone || c_cache_full_in.isNone)

/-- Embedding of `fn is_correct_time_to_append` (lines 35-38): a candidate
time may be appended iff its absolute difference from every already
accepted time exceeds `MIN_TIME_BETWEEN_RELEASES`. -/
def is_correct_time_to_append (arr : List ℕ) (time : ℕ) : Bool :=
  arr.all fun x => decide (MIN_TIME_BETWEEN_RELEASES < Nat.dist time x)

/-- Embedding of the rejection-sampling loop of `fn choice_times_to_releases`
(lines 18-33).  `fuel` bounds the total number of raw draws (the Rust loop
is unbounded; fuel exhaustion returns `none`); `pos` is the position in the
random stream, `k` the number of times still to accept, `acc` the accepted
times so far.  On success it returns the accepted times (in acceptance
order) together with the next stream position. -/
def choiceGo (stream : ℕ → ℕ) : ℕ → ℕ → ℕ → List ℕ → Option (List ℕ × ℕ)
  | _, pos, 0, acc => some (acc, pos)
  | 0, _, _ + 1, _ => none
  | fuel + 1, pos, k + 1, acc =>
    let time := stream pos % YEAR_TIME
    if is_correct_time_to_append acc time then
      choiceGo stream fuel (pos + 1) k (acc ++ [time])
    else
      choiceGo stream fuel (pos + 1) (k + 1) acc

/-- Embedding of `fn choice_times_to_releases` (lines 18-33) with explicit
fuel: draw until `RELEASE_COUNT` spacing-valid times are accepted. -/
def choice_times_to_releases (stream : ℕ → ℕ) (fuel : ℕ) :
    Option (List ℕ × ℕ) :=
  choiceGo stream fuel 0 RELEASE_COUNT []

/-- Embedding of the reservoir loop inside `rand`'s `choose_multiple_fill`
as used by `fn choice_bad_times_to_releases` (lines 40-47): after the
buffer is filled with the first `BAD_RELEASE_COUNT` elements, the element
with overall index `m` replaces a uniformly chosen slot
(`gen_range(0..(m+1))`, rendered `stream pos % (m+1)`) when that index
falls below the buffer size. -/
def reservoirGo (stream : ℕ → ℕ) :
    List ℕ → ℕ → ℕ → List ℕ → List ℕ
  | [], _, _, buf => buf
  | x :: xs, m, pos, buf =>
    let k := stream pos % (m + 1)
    reservoirGo stream xs (m + 1) (pos + 1)
      (if k < BAD_RELEASE_COUNT then buf.set k x else buf)

/-- Embedding of `fn choice_bad_times_to_releases` (lines 40-47): select
`BAD_RELEASE_COUNT` elements of `releases` without replacement by
reservoir sampling. -/
def choice_bad_times_to_releases (stream : ℕ → ℕ) (pos : ℕ)
    (releases : List ℕ) : List ℕ :=
  reservoirGo stream (releases.drop BAD_RELEASE_COUNT) BAD_RELEASE_COUNT pos
    (releases.take BAD_RELEASE_COUNT)

/-- Embedding of `fn create_releases_times` (lines 49-56): generate the
schedule, select the bad subset from the unsorted schedule, then sort both
ascending (`sort_unstable` rendered as `mergeSort`). -/
def create_releases_times (stream : ℕ → ℕ) (fuel : ℕ) :
    Option (List ℕ × List ℕ) :=
  match choice_times_to_releases stream fuel with
  | none => none
  | some (releases, pos) =>
    let bad_releases := choice_bad_times_to_releases stream pos releases
    some (releases.mergeSort (fun a b => decide (a ≤ b)),
          bad_releases.mergeSort (fun a b => decide (a ≤ b)))

/-- State of one trial of `fn experiment` (lines 58-183): the six
`peekable` cursors (remaining suffixes of the sorted schedules), the five
timers, and the downtime bookkeeping.  The Rust fixed array
`downs: [(u32,u32); 9]` with `downs_count` is rendered by the list
`downs` of the closed intervals (the entries below `downs_count`) plus
`openStart`, the first component of the entry at index `downs_count`
when it has been written by an up-to-down transition (`none` renders the
untouched value `0` of a fresh entry, and the close that pairs with it
uses `0` for the start, exactly as the Rust entry would hold). -/
structure SimState where
  relA : List ℕ
  relB : List ℕ
  relC : List ℕ
  badA : List ℕ
  badB : List ℕ
  badC : List ℕ
  bCacheFullIn : Option ℕ
  cCacheFullIn : Option ℕ
  aAvailableIn : Option ℕ
  bAvailableIn : Option ℕ
  cAvailableIn : Option ℕ
  downs : List (ℕ × ℕ)
  openStart : Option ℕ
deriving DecidableEq, Repr

/-- Availability of a state, via `is_now_available` exactly as called at
lines 90-96 and 160-166. -/
def SimState.available (s : SimState) : Bool :=
  is_now_available s.aAvailableIn s.bAvailableIn s.cAvailableIn
    s.bCacheFullIn s.cCacheFullIn

/-- The eleven event candidates of lines 98-110, in source order: the six
cursor lookaheads, the two cache timers and the three outage timers. -/
def candidates (s : SimState) : List (Option ℕ) :=
  [s.relA.head?, s.relB.head?, s.relC.head?,
   s.badA.head?, s.badB.head?, s.badC.head?,
   s.bCacheFullIn, s.cCacheFullIn,
   s.aAvailableIn, s.bAvailableIn, s.cAvailableIn]

/-- The next event time of line 111: minimum over the non-`none`
candidates, `none` when no candidate exists. -/
def nextEventTime (s : SimState) : Option ℕ :=
  ((candidates s).filterMap id).min?

/-- One cursor advance of lines 121-125: pop the head when it equals the
current time. -/
def popIfEq (time : ℕ) (l : List ℕ) : List ℕ :=
  if l.head? = some time then l.tail else l

/-- One timer clear of lines 128-138: reset the timer when its expiry
equals the current time. -/
def clearIfEq (time : ℕ) (o : Option ℕ) : Option ℕ :=
  if o = some time then none else o

/-- The plain-release phase of the batch (lines 121-125). -/
def applyPlain (time : ℕ) (s : SimState) : SimState :=
  { s with relA := popIfEq time s.relA, relB := popIfEq time s.relB,
           relC := popIfEq time s.relC }

/-- The timer-clearing phase of the batch (lines 128-138). -/
def applyTimers (time : ℕ) (s : SimState) : SimState :=
  { s with bCacheFullIn := clearIfEq time s.bCacheFullIn,
           cCacheFullIn := clearIfEq time s.cCacheFullIn,
           aAvailableIn := clearIfEq time s.aAvailableIn,
           bAvailableIn := clearIfEq time s.bAvailableIn,
           cAvailableIn := clearIfEq time s.cAvailableIn }

/-- The bad-release phase of the batch (lines 141-157): a node whose bad
cursor matches the time is put in outage for `UNAVAILABLE_TIME_AFTER_BAD`
minutes; only node A additionally re-arms both cache-cold timers. -/
def applyBadReleases (time : ℕ) (s : SimState) : SimState :=
  let s :=
    if s.badA.head? = some time then
      { s with badA := s.badA.tail,
               aAvailableIn := some (time + UNAVAILABLE_TIME_AFTER_BAD),
               bCacheFullIn := some (time + TIME_TO_B_CACHE),
               cCacheFullIn := some (time + TIME_TO_C_CACHE) }
    else s
  let s :=
    if s.badB.head? = some time then
      { s with badB := s.badB.tail,
               bAvailableIn := some (time + UNAVAILABLE_TIME_AFTER_BAD) }
    else s
  if s.badC.head? = some time then
    { s with badC := s.badC.tail,
             cAvailableIn := some (time + UNAVAILABLE_TIME_AFTER_BAD) }
  else s

/-- The whole batch of effects applied at one event time, in source
order: cursor advances, then timer clears, then bad-release
consumptions. -/
def applyBatch (time : ℕ) (s : SimState) : SimState :=
  applyBadReleases time (applyTimers time (applyPlain time s))

/-- The downtime bookkeeping of lines 168-175: an up-to-down transition
records the current time as the open interval start, a down-to-up
transition closes the open interval at the current time. -/
def recordTransition (time : ℕ) (before after : Bool) (s : SimState) :
    SimState :=
  if before && !after then { s with openStart := some time }
  else if !before && after then
    { s with downs := s.downs ++ [(s.openStart.getD 0, time)],
             openStart := none }
  else s

/-- One iteration of the event loop (lines 89-176): `none` when the loop
breaks because no candidate event remains; otherwise the state after the
batch at the minimal event time and the transition bookkeeping, the
availability predicate being evaluated before and after the batch. -/
def SimState.step (s : SimState) : Option SimState :=
  match nextEventTime s with
  | none => none
  | some time =>
    let before := s.available
    let s1 := applyBatch time s
    let after := s1.available
    some (recordTransition time before after s1)

/-- Run the event loop for at most `fuel` iterations; `some` of the final
state when the loop terminates within the fuel. -/
def simLoop : ℕ → SimState → Option SimState
  | 0, _ => none
  | fuel + 1, s =>
    match s.step with
    | none => some s
    | some s1 => simLoop fuel s1

/-- The state after `n` iterations of the event loop (identity once the
loop has terminated); every state reached during a trial is `stepN n` of
the initial state for some `n`. -/
def stepN : ℕ → SimState → SimState
  | 0, s => s
  | n + 1, s =>
    match s.step with
    | none => s
    | some s1 => stepN n s1

/-- The initial state of `fn experiment` (lines 66-86) for given sorted
schedules: both cache-cold timers armed (`TIME_TO_B_CACHE`,
`TIME_TO_C_CACHE`), no outage timers, empty downtime record. -/
def initialState (aRel aBad bRel bBad cRel cBad : List ℕ) : SimState :=
  { relA := aRel, relB := bRel, relC := cRel,
    badA := aBad, badB := bBad, badC := cBad,
    bCacheFullIn := some TIME_TO_B_CACHE,
    cCacheFullIn := some TIME_TO_C_CACHE,
    aAvailableIn := none, bAvailableIn := none, cAvailableIn := none,
    downs := [], openStart := none }

/-- The per-trial downtime of line 179: sum of `end - start` over the
interval store (entries never written contribute `0`). -/
def downTime (s : SimState) : ℕ :=
  (s.downs.map fun p => p.2 - p.1).sum

/-- Number of armed timers of a state. -/
def armedCount (s : SimState) : ℕ :=
  (if s.bCacheFullIn.isSome then 1 else 0)
    + (if s.cCacheFullIn.isSome then 1 else 0)
    + (if s.aAvailableIn.isSome then 1 else 0)
    + (if s.bAvailableIn.isSome then 1 else 0)
    + (if s.cAvailableIn.isSome then 1 else 0)

/-- Total number of pending cursor items of a state. -/
def cursorTotal (s : SimState) : ℕ :=
  s.relA.length + s.relB.length + s.relC.length
    + s.badA.length + s.badB.length + s.badC.length

/-- Termination measure of the event loop: every iteration consumes a
cursor item (worth 6, possibly arming up to 5 timers) or only clears
timers. -/
def simMeasure (s : SimState) : ℕ :=
  6 * cursorTotal s + armedCount s

/-- Embedding of `fn experiment` (lines 58-183) downstream of schedule
generation: run the event loop from the initial state of the given
schedules (the measure bounds the iteration count, see
`simLoop_total`) and sum the recorded downtime. -/
def experiment (aRel aBad bRel bBad cRel cBad : List ℕ) : ℕ :=
  match simLoop
      (simMeasure (initialState aRel aBad bRel bBad cRel cBad) + 1)
      (initialState aRel aBad bRel bBad cRel cBad) with
  | some f => downTime f
  | none => 0

/-! ### Basic facts about the event-time minimum -/

theorem natMin_eq_some_iff {l : List ℕ} {a : ℕ} :
    l.min? = some a ↔ a ∈ l ∧ ∀ b ∈ l, a ≤ b := by
  apply List.min?_eq_some_iff <;> intros <;> omega

theorem nextEventTime_mem {s : SimState} {t : ℕ}
    (h : nextEventTime s = some t) : t ∈ (candidates s).filterMap id :=
  (natMin_eq_some_iff.mp h).1

theorem nextEventTime_le {s : SimState} {t : ℕ}
    (h : nextEventTime s = some t) :
    ∀ x ∈ (candidates s).filterMap id, t ≤ x :=
  (natMin_eq_some_iff.mp h).2

/-! ### C1: the availability predicate -/

/-- C1: the system-level availability predicate holds exactly when A has
no pending outage timer, B has no pending outage timer or B's cache-cold
timer is unset, and C has no pending outage timer or C's cache-cold timer
is unset; it is false whenever A is in outage, and true when B and C are
both in outage but both caches are warm and A is available. -/
theorem c1_availability_predicate :
    (∀ aA bA cA bC cC : Option ℕ,
      is_now_available aA bA cA bC cC = true ↔
        aA = none ∧ (bA = none ∨ bC = none) ∧ (cA = none ∨ cC = none))
    ∧ (∀ (ta : ℕ) (bA cA bC cC : Option ℕ),
        is_now_available (some ta) bA cA bC cC = false)
    ∧ (∀ tb tc : ℕ,
        is_now_available none (some tb) (some tc) none none = true) := by
  refine ⟨fun aA bA cA bC cC => ?_, fun ta bA cA bC cC => ?_, fun tb tc => ?_⟩
  · cases aA <;> cases bA <;> cases cA <;> cases bC <;> cases cC <;>
      simp [is_now_available]
  · simp [is_now_available]
  · simp [is_now_available]

/-! ### C3: cache timers and the bad-release phase -/

/-- C3: in the bad-release phase, consuming A's bad release at time `t`
sets A's outage timer to `t + 9` and re-arms B's and C's cache-cold
timers to `t + 30` and `t + 40`; when A's bad release does not fire,
neither cache timer is touched by the phase, while B's (resp. C's) bad
release sets only that node's own outage timer to `t + 9`. -/
theorem c3_cache_timers_only_reset_by_A :
    ∀ (s : SimState) (t : ℕ),
      (s.badA.head? = some t →
        (applyBadReleases t s).aAvailableIn =
            some (t + UNAVAILABLE_TIME_AFTER_BAD)
          ∧ (applyBadReleases t s).bCacheFullIn = some (t + TIME_TO_B_CACHE)
          ∧ (applyBadReleases t s).cCacheFullIn = some (t + TIME_TO_C_CACHE))
      ∧ (s.badA.head? ≠ some t →
          (applyBadReleases t s).bCacheFullIn = s.bCacheFullIn
          ∧ (applyBadReleases t s).cCacheFullIn = s.cCacheFullIn
          ∧ (applyBadReleases t s).aAvailableIn = s.aAvailableIn
          ∧ (s.badB.head? = some t →
              (applyBadReleases t s).bAvailableIn =
                some (t + UNAVAILABLE_TIME_AFTER_BAD))
          ∧ (s.badB.head? ≠ some t →
              (applyBadReleases t s).bAvailableIn = s.bAvailableIn)
          ∧ (s.badC.head? = some t →
              (applyBadReleases t s).cAvailableIn =
                some (t + UNAVAILABLE_TIME_AFTER_BAD))
          ∧ (s.badC.head? ≠ some t →
              (applyBadReleases t s).cAvailableIn = s.cAvailableIn)) := by
  intro s t
  unfold applyBadReleases
  by_cases hA : s.badA.head? = some t <;>
    by_cases hB : s.badB.head? = some t <;>
    by_cases hC : s.badC.head? = some t <;>
    simp [hA, hB, hC]

/-- Witness for C3 at concrete states: an A bad release at time 5, and a
state without one where B and C bad releases fire at time 5. -/
theorem c3_witness :
    ((applyBadReleases 5 ⟨[], [], [], [5], [], [], none, none, none, none,
        none, [], none⟩).aAvailableIn = some (5 + UNAVAILABLE_TIME_AFTER_BAD)
      ∧ (applyBadReleases 5 ⟨[], [], [], [5], [], [], none, none, none, none,
        none, [], none⟩).bCacheFullIn = some (5 + TIME_TO_B_CACHE)
      ∧ (applyBadReleases 5 ⟨[], [], [], [5], [], [], none, none, none, none,
        none, [], none⟩).cCacheFullIn = some (5 + TIME_TO_C_CACHE))
    ∧ ((applyBadReleases 5 ⟨[], [], [], [], [5], [5], some 7, some 8, none,
        none, none, [], none⟩).bCacheFullIn = some 7
      ∧ (applyBadReleases 5 ⟨[], [], [], [], [5], [5], some 7, some 8, none,
        none, none, [], none⟩).cCacheFullIn = some 8) := by
  constructor
  · exact (c3_cache_timers_only_reset_by_A
      ⟨[], [], [], [5], [], [], none, none, none, none, none, [], none⟩ 5).1
      rfl
  · have h := (c3_cache_timers_only_reset_by_A
      ⟨[], [], [], [], [5], [5], some 7, some 8, none, none, none, [], none⟩
      5).2 (by simp)
    exact ⟨h.1, h.2.1⟩

/-! ### C8: the single-A-bad-release scenario -/

/-- Scenario state of C8: A has exactly one release, which is bad, at
minute 100; B and C have no events and both caches are warm at time 0. -/
def c8State : SimState :=
  { relA := [100], relB := [], relC := [],
    badA := [100], badB := [], badC := [],
    bCacheFullIn := none, cCacheFullIn := none,
    aAvailableIn := none, bAvailableIn := none, cAvailableIn := none,
    downs := [], openStart := none }

/-- C8: from a state where A has exactly one bad release at minute 100,
no other event is pending and both caches are warm, the event loop
terminates with exactly one downtime interval `(100, 109)` and a total
downtime of 9 minutes. -/
theorem c8_single_bad_release_scenario :
    (simLoop (simMeasure c8State + 1) c8State).map
        (fun f => (f.downs, downTime f)) = some ([(100, 109)], 9) := by
  decide

/-! ### Projection lemmas for the batch phases -/

@[simp] theorem applyPlain_badA (t : ℕ) (s : SimState) :
    (applyPlain t s).badA = s.badA := rfl

@[simp] theorem applyPlain_badB (t : ℕ) (s : SimState) :
    (applyPlain t s).badB = s.badB := rfl

@[simp] theorem applyPlain_badC (t : ℕ) (s : SimState) :
    (applyPlain t s).badC = s.badC := rfl

@[simp] theorem applyPlain_bCache (t : ℕ) (s : SimState) :
    (applyPlain t s).bCacheFullIn = s.bCacheFullIn := rfl

@[simp] theorem applyPlain_cCache (t : ℕ) (s : SimState) :
    (applyPlain t s).cCacheFullIn = s.cCacheFullIn := rfl

@[simp] theorem applyPlain_aAvail (t : ℕ) (s : SimState) :
    (applyPlain t s).aAvailableIn = s.aAvailableIn := rfl

@[simp] theorem applyPlain_bAvail (t : ℕ) (s : SimState) :
    (applyPlain t s).bAvailableIn = s.bAvailableIn := rfl

@[simp] theorem applyPlain_cAvail (t : ℕ) (s : SimState) :
    (applyPlain t s).cAvailableIn = s.cAvailableIn := rfl

@[simp] theorem applyPlain_downs (t : ℕ) (s : SimState) :
    (applyPlain t s).downs = s.downs := rfl

@[simp] theorem applyPlain_openStart (t : ℕ) (s : SimState) :
    (applyPlain t s).openStart = s.openStart := rfl

@[simp] theorem applyTimers_relA (t : ℕ) (s : SimState) :
    (applyTimers t s).relA = s.relA := rfl

@[simp] theorem applyTimers_relB (t : ℕ) (s : SimState) :
    (applyTimers t s).relB = s.relB := rfl

@[simp] theorem applyTimers_relC (t : ℕ) (s : SimState) :
    (applyTimers t s).relC = s.relC := rfl

@[simp] theorem applyTimers_badA (t : ℕ) (s : SimState) :
    (applyTimers t s).badA = s.badA := rfl

@[simp] theorem applyTimers_badB (t : ℕ) (s : SimState) :
    (applyTimers t s).badB = s.badB := rfl

@[simp] theorem applyTimers_badC (t : ℕ) (s : SimState) :
    (applyTimers t s).badC = s.badC := rfl

@[simp] theorem applyTimers_downs (t : ℕ) (s : SimState) :
    (applyTimers t s).downs = s.downs := rfl

@[simp] theorem applyTimers_openStart (t : ℕ) (s : SimState) :
    (applyTimers t s).openStart = s.openStart := rfl

theorem applyTimers_bCache (t : ℕ) (s : SimState) :
    (applyTimers t s).bCacheFullIn = clearIfEq t s.bCacheFullIn := rfl

theorem applyTimers_cCache (t : ℕ) (s : SimState) :
    (applyTimers t s).cCacheFullIn = clearIfEq t s.cCacheFullIn := rfl

theorem applyTimers_aAvail (t : ℕ) (s : SimState) :
    (applyTimers t s).aAvailableIn = clearIfEq t s.aAvailableIn := rfl

theorem applyTimers_bAvail (t : ℕ) (s : SimState) :
    (applyTimers t s).bAvailableIn = clearIfEq t s.bAvailableIn := rfl

theorem applyTimers_cAvail (t : ℕ) (s : SimState) :
    (applyTimers t s).cAvailableIn = clearIfEq t s.cAvailableIn := rfl

@[simp] theorem applyBadReleases_relA (t : ℕ) (s : SimState) :
    (applyBadReleases t s).relA = s.relA := by
  unfold applyBadReleases
  by_cases hA : s.badA.head? = some t <;> by_cases hB : s.badB.head? = some t
    <;> by_cases hC : s.badC.head? = some t <;> simp [hA, hB, hC]

@[simp] theorem applyBadReleases_relB (t : ℕ) (s : SimState) :
    (applyBadReleases t s).relB = s.relB := by
  unfold applyBadReleases
  by_cases hA : s.badA.head? = some t <;> by_cases hB : s.badB.head? = some t
    <;> by_cases hC : s.badC.head? = some t <;> simp [hA, hB, hC]

@[simp] theorem applyBadReleases_relC (t : ℕ) (s : SimState) :
    (applyBadReleases t s).relC = s.relC := by
  unfold applyBadReleases
  by_cases hA : s.badA.head? = some t <;> by_cases hB : s.badB.head? = some t
    <;> by_cases hC : s.badC.head? = some t <;> simp [hA, hB, hC]

@[simp] theorem applyBadReleases_downs (t : ℕ) (s : SimState) :
    (applyBadReleases t s).downs = s.downs := by
  unfold applyBadReleases
  by_cases hA : s.badA.head? = some t <;> by_cases hB : s.badB.head? = some t
    <;> by_cases hC : s.badC.head? = some t <;> simp [hA, hB, hC]

@[simp] theorem applyBadReleases_openStart (t : ℕ) (s : SimState) :
    (applyBadReleases t s).openStart = s.openStart := by
  unfold applyBadReleases
  by_cases hA : s.badA.head? = some t <;> by_cases hB : s.badB.head? = some t
    <;> by_cases hC : s.badC.head? = some t <;> simp [hA, hB, hC]

@[simp] theorem recordTransition_relA (t : ℕ) (b a : Bool) (s : SimState) :
    (recordTransition t b a s).relA = s.relA := by
  unfold recordTransition
  split_ifs <;> rfl

@[simp] theorem recordTransition_relB (t : ℕ) (b a : Bool) (s : SimState) :
    (recordTransition t b a s).relB = s.relB := by
  unfold recordTransition
  split_ifs <;> rfl

@[simp] theorem recordTransition_relC (t : ℕ) (b a : Bool) (s : SimState) :
    (recordTransition t b a s).relC = s.relC := by
  unfold recordTransition
  split_ifs <;> rfl

@[simp] theorem recordTransition_badA (t : ℕ) (b a : Bool) (s : SimState) :
    (recordTransition t b a s).badA = s.badA := by
  unfold recordTransition
  split_ifs <;> rfl

@[simp] theorem recordTransition_badB (t : ℕ) (b a : Bool) (s : SimState) :
    (recordTransition t b a s).badB = s.badB := by
  unfold recordTransition
  split_ifs <;> rfl

@[simp] theorem recordTransition_badC (t : ℕ) (b a : Bool) (s : SimState) :
    (recordTransition t b a s).badC = s.badC := by
  unfold recordTransition
  split_ifs <;> rfl

@[simp] theorem recordTransition_bCache (t : ℕ) (b a : Bool) (s : SimState) :
    (recordTransition t b a s).bCacheFullIn = s.bCacheFullIn := by
  unfold recordTransition
  split_ifs <;> rfl

@[simp] theorem recordTransition_cCache (t : ℕ) (b a : Bool) (s : SimState) :
    (recordTransition t b a s).cCacheFullIn = s.cCacheFullIn := by
  unfold recordTransition
  split_ifs <;> rfl

@[simp] theorem recordTransition_aAvail (t : ℕ) (b a : Bool) (s : SimState) :
    (recordTransition t b a s).aAvailableIn = s.aAvailableIn := by
  unfold recordTransition
  split_ifs <;> rfl

@[simp] theorem recordTransition_bAvail (t : ℕ) (b a : Bool) (s : SimState) :
    (recordTransition t b a s).bAvailableIn = s.bAvailableIn := by
  unfold recordTransition
  split_ifs <;> rfl

@[simp] theorem recordTransition_cAvail (t : ℕ) (b a : Bool) (s : SimState) :
    (recordTransition t b a s).cAvailableIn = s.cAvailableIn := by
  unfold recordTransition
  split_ifs <;> rfl

@[simp] theorem recordTransition_available (t : ℕ) (b a : Bool)
    (s : SimState) :
    (recordTransition t b a s).available = s.available := by
  unfold SimState.available is_now_available
  simp

/-! ### C10: cache-cold timers at trial start -/

/-- C10: the trial initial state arms B's cache-cold timer to minute 30
and C's to minute 40, so a bad release of B at any minute `u < 30`
(resp. of C at `u < 40`), with no other release scheduled, drives the
event loop into a down interval opening exactly at `u` even though A's
outage timer stays unset. -/
theorem c10_caches_start_cold :
    (∀ aRel aBad bRel bBad cRel cBad : List ℕ,
      (initialState aRel aBad bRel bBad cRel cBad).bCacheFullIn =
          some TIME_TO_B_CACHE
        ∧ (initialState aRel aBad bRel bBad cRel cBad).cCacheFullIn =
          some TIME_TO_C_CACHE)
    ∧ (∀ u : ℕ, u < TIME_TO_B_CACHE → ∃ n : ℕ,
        (stepN n (initialState [] [] [u] [u] [] [])).available = false
          ∧ (stepN n (initialState [] [] [u] [u] [] [])).aAvailableIn = none
          ∧ (stepN n (initialState [] [] [u] [u] [] [])).openStart = some u)
    ∧ (∀ u : ℕ, u < TIME_TO_C_CACHE → ∃ n : ℕ,
        (stepN n (initialState [] [] [] [] [u] [u])).available = false
          ∧ (stepN n (initialState [] [] [] [] [u] [u])).aAvailableIn = none
          ∧ (stepN n (initialState [] [] [] [] [u] [u])).openStart
              = some u) := by
  refine ⟨fun aRel aBad bRel bBad cRel cBad => ⟨rfl, rfl⟩,
    fun u hu => ?_, fun u hu => ?_⟩
  · have hu30 : u < 30 := by simpa [TIME_TO_B_CACHE] using hu
    have h30 : ¬ ((30 : ℕ) = u) := by omega
    have h40 : ¬ ((40 : ℕ) = u) := by omega
    have hmin : nextEventTime (initialState [] [] [u] [u] [] []) = some u := by
      unfold nextEventTime
      apply natMin_eq_some_iff.mpr
      constructor
      · simp [candidates, initialState]
      · intro b hb
        simp [candidates, initialState, TIME_TO_B_CACHE, TIME_TO_C_CACHE]
          at hb
        omega
    have hstep : (initialState [] [] [u] [u] [] []).step =
        some ⟨[], [], [], [], [], [], some 30, some 40, none,
          some (u + 9), none, [], some u⟩ := by
      rw [SimState.step, hmin]
      simp [applyBatch, applyBadReleases, applyTimers, applyPlain,
        initialState, popIfEq, clearIfEq, SimState.available,
        is_now_available, recordTransition, TIME_TO_B_CACHE,
        TIME_TO_C_CACHE, UNAVAILABLE_TIME_AFTER_BAD, h30, h40]
    refine ⟨1, ?_⟩
    simp only [show (1 : ℕ) = 0 + 1 from rfl, stepN, hstep]
    simp [SimState.available, is_now_available]
  · have hu40 : u < 40 := by simpa [TIME_TO_C_CACHE] using hu
    have h40 : ¬ ((40 : ℕ) = u) := by omega
    rcases le_or_lt u 30 with hle | hgt
    · have hmin : nextEventTime (initialState [] [] [] [] [u] [u])
          = some u := by
        unfold nextEventTime
        apply natMin_eq_some_iff.mpr
        constructor
        · simp [candidates, initialState]
        · intro b hb
          simp [candidates, initialState, TIME_TO_B_CACHE, TIME_TO_C_CACHE]
            at hb
          omega
      by_cases h30 : ((30 : ℕ) = u)
      · have hstep : (initialState [] [] [] [] [u] [u]).step =
            some ⟨[], [], [], [], [], [], none, some 40, none, none,
              some (u + 9), [], some u⟩ := by
          rw [SimState.step, hmin]
          simp [applyBatch, applyBadReleases, applyTimers, applyPlain,
            initialState, popIfEq, clearIfEq, SimState.available,
            is_now_available, recordTransition, TIME_TO_B_CACHE,
            TIME_TO_C_CACHE, UNAVAILABLE_TIME_AFTER_BAD, h30, h40]
        refine ⟨1, ?_⟩
        simp only [show (1 : ℕ) = 0 + 1 from rfl, stepN, hstep]
        simp [SimState.available, is_now_available]
      · have hstep : (initialState [] [] [] [] [u] [u]).step =
            some ⟨[], [], [], [], [], [], some 30, some 40, none, none,
              some (u + 9), [], some u⟩ := by
          rw [SimState.step, hmin]
          simp [applyBatch, applyBadReleases, applyTimers, applyPlain,
            initialState, popIfEq, clearIfEq, SimState.available,
            is_now_available, recordTransition, TIME_TO_B_CACHE,
            TIME_TO_C_CACHE, UNAVAILABLE_TIME_AFTER_BAD, h30, h40]
        refine ⟨1, ?_⟩
        simp only [show (1 : ℕ) = 0 + 1 from rfl, stepN, hstep]
        simp [SimState.available, is_now_available]
    · have hne : ¬ (u = 30) := by omega
      have hmin1 : nextEventTime (initialState [] [] [] [] [u] [u])
          = some 30 := by
        unfold nextEventTime
        apply natMin_eq_some_iff.mpr
        constructor
        · simp [candidates, initialState, TIME_TO_B_CACHE]
        · intro b hb
          simp [candidates, initialState, TIME_TO_B_CACHE, TIME_TO_C_CACHE]
            at hb
          omega
      have hstep1 : (initialState [] [] [] [] [u] [u]).step =
          some ⟨[], [], [u], [], [], [u], none, some 40, none, none,
            none, [], none⟩ := by
        rw [SimState.step, hmin1]
        simp [applyBatch, applyBadReleases, applyTimers, applyPlain,
          initialState, popIfEq, clearIfEq, SimState.available,
          is_now_available, recordTransition, TIME_TO_B_CACHE,
          TIME_TO_C_CACHE, hne]
      have hmin2 : nextEventTime ⟨[], [], [u], [], [], [u], none, some 40,
          none, none, none, [], none⟩ = some u := by
        unfold nextEventTime
        apply natMin_eq_some_iff.mpr
        constructor
        · simp [candidates]
        · intro b hb
          simp [candidates] at hb
          omega
      have hstep2 : SimState.step ⟨[], [], [u], [], [], [u], none, some 40,
          none, none, none, [], none⟩ =
          some ⟨[], [], [], [], [], [], none, some 40, none, none,
            some (u + 9), [], some u⟩ := by
        rw [SimState.step, hmin2]
        simp [applyBatch, applyBadReleases, applyTimers, applyPlain,
          popIfEq, clearIfEq, SimState.available, is_now_available,
          recordTransition, UNAVAILABLE_TIME_AFTER_BAD, h40]
      refine ⟨2, ?_⟩
      simp only [show (2 : ℕ) = 0 + 1 + 1 from rfl, stepN, hstep1, hstep2]
      simp [SimState.available, is_now_available]

/-- Witness for C10 at `u = 10`: a bad release of B at minute 10 of a
fresh trial brings the system down with A up, and likewise for C. -/
theorem c10_witness :
    (∃ n : ℕ,
      (stepN n (initialState [] [] [10] [10] [] [])).available = false
        ∧ (stepN n (initialState [] [] [10] [10] [] [])).aAvailableIn = none
        ∧ (stepN n (initialState [] [] [10] [10] [] [])).openStart = some 10)
    ∧ (∃ n : ℕ,
      (stepN n (initialState [] [] [] [] [35] [35])).available = false
        ∧ (stepN n (initialState [] [] [] [] [35] [35])).aAvailableIn = none
        ∧ (stepN n (initialState [] [] [] [] [35] [35])).openStart
            = some 35) :=
  ⟨c10_caches_start_cold.2.1 10 (by decide),
   c10_caches_start_cold.2.2 35 (by decide)⟩

/-! ### C4: structure of one event-loop iteration -/

/-- C4: in every iteration, the chosen event time is the minimum over all
non-`none` candidates; the loop terminates exactly when no candidate
exists; when an event time exists the new state is obtained by applying
the whole batch and only then re-evaluating the availability predicate
against its value before the batch; an up-to-down transition records the
time as a new interval start and a down-to-up transition closes the open
interval at that time. -/
theorem c4_event_loop_structure :
    ∀ s : SimState,
      (∀ t : ℕ, nextEventTime s = some t ↔
        (t ∈ (candidates s).filterMap id
          ∧ ∀ x ∈ (candidates s).filterMap id, t ≤ x))
      ∧ (s.step = none ↔ ∀ o ∈ candidates s, o = none)
      ∧ (∀ t : ℕ, nextEventTime s = some t →
          s.step = some (recordTransition t s.available
            (applyBatch t s).available (applyBatch t s)))
      ∧ (∀ (t : ℕ) (s1 : SimState),
          recordTransition t true false s1 = { s1 with openStart := some t }
          ∧ recordTransition t false true s1 =
              { s1 with downs := s1.downs ++ [(s1.openStart.getD 0, t)],
                        openStart := none }
          ∧ recordTransition t true true s1 = s1
          ∧ recordTransition t false false s1 = s1) := by
  intro s
  refine ⟨fun t => natMin_eq_some_iff, ?_, fun t h => ?_, fun t s1 => ?_⟩
  · cases h : nextEventTime s with
    | none =>
      have : ((candidates s).filterMap id) = [] :=
        List.min?_eq_none_iff.mp h
      simp only [SimState.step, h]
      simpa [List.filterMap_eq_nil_iff] using this
    | some t =>
      simp only [SimState.step, h]
      constructor
      · intro hc
        exact absurd hc (by simp)
      · intro hall
        have : ((candidates s).filterMap id) = [] := by
          simp [List.filterMap_eq_nil_iff]
          exact fun o ho => hall o ho
        unfold nextEventTime at h
        rw [this] at h
        simp [List.min?] at h
  · rw [SimState.step, h]
  · refine ⟨?_, ?_, ?_, ?_⟩ <;> simp [recordTransition]

/-- Witness for C4: one concrete iteration, at the state whose only
pending event is a plain release of A at minute 5. -/
theorem c4_witness :
    SimState.step ⟨[5], [], [], [], [], [], none, none, none, none, none,
        [], none⟩ =
      some (recordTransition 5
        (SimState.available ⟨[5], [], [], [], [], [], none, none, none,
          none, none, [], none⟩)
        (applyBatch 5 ⟨[5], [], [], [], [], [], none, none, none, none,
          none, [], none⟩).available
        (applyBatch 5 ⟨[5], [], [], [], [], [], none, none, none, none,
          none, [], none⟩)) :=
  (c4_event_loop_structure ⟨[5], [], [], [], [], [], none, none, none,
    none, none, [], none⟩).2.2.1 5 (by decide)

/-! ### Termination of the event loop -/

theorem armedCount_le_five (s : SimState) : armedCount s ≤ 5 := by
  unfold armedCount
  split_ifs <;> omega

theorem simMeasure_record (t : ℕ) (b a : Bool) (s : SimState) :
    simMeasure (recordTransition t b a s) = simMeasure s := by
  unfold simMeasure cursorTotal armedCount
  simp

theorem popIfEq_length_le (t : ℕ) (l : List ℕ) :
    (popIfEq t l).length ≤ l.length := by
  unfold popIfEq
  split_ifs <;> cases l <;> simp

theorem popIfEq_length_lt (t : ℕ) (l : List ℕ) (h : l.head? = some t) :
    (popIfEq t l).length + 1 = l.length := by
  unfold popIfEq
  rw [if_pos h]
  cases l with
  | nil => simp at h
  | cons x xs => simp

theorem cursorTotal_applyPlain_le (t : ℕ) (s : SimState) :
    cursorTotal (applyPlain t s) ≤ cursorTotal s := by
  have h1 := popIfEq_length_le t s.relA
  have h2 := popIfEq_length_le t s.relB
  have h3 := popIfEq_length_le t s.relC
  unfold cursorTotal applyPlain
  simp only
  omega

theorem cursorTotal_applyTimers (t : ℕ) (s : SimState) :
    cursorTotal (applyTimers t s) = cursorTotal s := rfl

theorem applyBadReleases_badA (t : ℕ) (s : SimState) :
    (applyBadReleases t s).badA =
      if s.badA.head? = some t then s.badA.tail else s.badA := by
  unfold applyBadReleases
  by_cases hA : s.badA.head? = some t <;> by_cases hB : s.badB.head? = some t
    <;> by_cases hC : s.badC.head? = some t <;> simp [hA, hB, hC]

theorem applyBadReleases_badB (t : ℕ) (s : SimState) :
    (applyBadReleases t s).badB =
      if s.badB.head? = some t then s.badB.tail else s.badB := by
  unfold applyBadReleases
  by_cases hA : s.badA.head? = some t <;> by_cases hB : s.badB.head? = some t
    <;> by_cases hC : s.badC.head? = some t <;> simp [hA, hB, hC]

theorem applyBadReleases_badC (t : ℕ) (s : SimState) :
    (applyBadReleases t s).badC =
      if s.badC.head? = some t then s.badC.tail else s.badC := by
  unfold applyBadReleases
  by_cases hA : s.badA.head? = some t <;> by_cases hB : s.badB.head? = some t
    <;> by_cases hC : s.badC.head? = some t <;> simp [hA, hB, hC]

theorem condTail_length_le (t : ℕ) (l : List ℕ) :
    (if l.head? = some t then l.tail else l).length ≤ l.length := by
  split_ifs <;> cases l <;> simp

theorem condTail_length_eq {t : ℕ} {l : List ℕ} (h : l.head? = some t) :
    (if l.head? = some t then l.tail else l).length + 1 = l.length := by
  rw [if_pos h]
  cases l with
  | nil => simp at h
  | cons x xs => simp

theorem cursorTotal_applyBad_le (t : ℕ) (s : SimState) :
    cursorTotal (applyBadReleases t s) ≤ cursorTotal s := by
  have hA := condTail_length_le t s.badA
  have hB := condTail_length_le t s.badB
  have hC := condTail_length_le t s.badC
  unfold cursorTotal
  rw [applyBadReleases_relA, applyBadReleases_relB, applyBadReleases_relC,
    applyBadReleases_badA, applyBadReleases_badB, applyBadReleases_badC]
  omega

theorem applyBad_of_none (t : ℕ) (s : SimState)
    (hA : ¬ s.badA.head? = some t) (hB : ¬ s.badB.head? = some t)
    (hC : ¬ s.badC.head? = some t) :
    applyBadReleases t s = s := by
  unfold applyBadReleases
  simp [hA, hB, hC]

theorem cursorTotal_applyBad_fire (t : ℕ) (s : SimState)
    (h : s.badA.head? = some t ∨ s.badB.head? = some t
      ∨ s.badC.head? = some t) :
    cursorTotal (applyBadReleases t s) + 1 ≤ cursorTotal s := by
  have hA := condTail_length_le t s.badA
  have hB := condTail_length_le t s.badB
  have hC := condTail_length_le t s.badC
  unfold cursorTotal
  rw [applyBadReleases_relA, applyBadReleases_relB, applyBadReleases_relC,
    applyBadReleases_badA, applyBadReleases_badB, applyBadReleases_badC]
  rcases h with h | h | h
  · have := condTail_length_eq h
    omega
  · have := condTail_length_eq h
    omega
  · have := condTail_length_eq h
    omega

theorem clearIfEq_isSome_le (t : ℕ) (o : Option ℕ) :
    (if (clearIfEq t o).isSome then 1 else 0)
      ≤ (if o.isSome then 1 else 0) := by
  unfold clearIfEq
  split_ifs <;> simp_all

theorem armedCount_applyTimers_le (t : ℕ) (s : SimState) :
    armedCount (applyTimers t s) ≤ armedCount s := by
  have h1 := clearIfEq_isSome_le t s.bCacheFullIn
  have h2 := clearIfEq_isSome_le t s.cCacheFullIn
  have h3 := clearIfEq_isSome_le t s.aAvailableIn
  have h4 := clearIfEq_isSome_le t s.bAvailableIn
  have h5 := clearIfEq_isSome_le t s.cAvailableIn
  unfold armedCount applyTimers
  dsimp only
  omega

theorem armedCount_applyTimers_lt (t : ℕ) (s : SimState)
    (h : s.bCacheFullIn = some t ∨ s.cCacheFullIn = some t
      ∨ s.aAvailableIn = some t ∨ s.bAvailableIn = some t
      ∨ s.cAvailableIn = some t) :
    armedCount (applyTimers t s) + 1 ≤ armedCount s := by
  have h1 := clearIfEq_isSome_le t s.bCacheFullIn
  have h2 := clearIfEq_isSome_le t s.cCacheFullIn
  have h3 := clearIfEq_isSome_le t s.aAvailableIn
  have h4 := clearIfEq_isSome_le t s.bAvailableIn
  have h5 := clearIfEq_isSome_le t s.cAvailableIn
  have hz : ∀ o : Option ℕ, o = some t →
      (if (clearIfEq t o).isSome then 1 else 0) = 0
        ∧ (if o.isSome then 1 else 0) = 1 := by
    intro o ho
    simp [clearIfEq, ho]
  unfold armedCount applyTimers
  dsimp only
  rcases h with h | h | h | h | h <;> rcases hz _ h with ⟨hz1, hz2⟩ <;>
    rw [hz1, hz2] <;> omega

/-- The source of the chosen event time: it is the head of one of the six
cursors or the value of one of the five timers. -/
theorem eventTime_source {s : SimState} {t : ℕ}
    (h : nextEventTime s = some t) :
    s.relA.head? = some t ∨ s.relB.head? = some t ∨ s.relC.head? = some t
      ∨ s.badA.head? = some t ∨ s.badB.head? = some t
      ∨ s.badC.head? = some t
      ∨ s.bCacheFullIn = some t ∨ s.cCacheFullIn = some t
      ∨ s.aAvailableIn = some t ∨ s.bAvailableIn = some t
      ∨ s.cAvailableIn = some t := by
  have hm := nextEventTime_mem h
  rw [List.mem_filterMap] at hm
  obtain ⟨o, ho, hot⟩ := hm
  simp only [id] at hot
  subst hot
  simp only [candidates, List.mem_cons, List.not_mem_nil, or_false] at ho
  tauto

/-- The measure strictly drops across a batch whose time is the value of
one of the five timers. -/
theorem timer_case_simMeasure_lt {s : SimState} {t : ℕ}
    (htimer : s.bCacheFullIn = some t ∨ s.cCacheFullIn = some t
      ∨ s.aAvailableIn = some t ∨ s.bAvailableIn = some t
      ∨ s.cAvailableIn = some t) :
    simMeasure (applyBatch t s) < simMeasure s := by
  have hple := cursorTotal_applyPlain_le t s
  have hble := cursorTotal_applyBad_le t (applyTimers t (applyPlain t s))
  have harm5 := armedCount_le_five
    (applyBadReleases t (applyTimers t (applyPlain t s)))
  have hct : cursorTotal (applyTimers t (applyPlain t s))
      = cursorTotal (applyPlain t s) := rfl
  have harmp : armedCount (applyPlain t s) = armedCount s := rfl
  have harmlt : armedCount (applyTimers t (applyPlain t s)) + 1
      ≤ armedCount (applyPlain t s) := by
    apply armedCount_applyTimers_lt
    simp only [applyPlain_bCache, applyPlain_cCache, applyPlain_aAvail,
      applyPlain_bAvail, applyPlain_cAvail]
    tauto
  unfold simMeasure applyBatch
  by_cases hbad : s.badA.head? = some t ∨ s.badB.head? = some t
    ∨ s.badC.head? = some t
  · have hfire := cursorTotal_applyBad_fire t
      (applyTimers t (applyPlain t s)) (by simpa using hbad)
    omega
  · push_neg at hbad
    have hid := applyBad_of_none t (applyTimers t (applyPlain t s))
      (by simpa using hbad.1) (by simpa using hbad.2.1)
      (by simpa using hbad.2.2)
    rw [hid]
    omega

/-- Each iteration of the event loop strictly decreases the measure. -/
theorem step_simMeasure_lt {s s1 : SimState} (h : s.step = some s1) :
    simMeasure s1 < simMeasure s := by
  cases ht : nextEventTime s with
  | none => rw [SimState.step, ht] at h; cases h
  | some t =>
    rw [SimState.step, ht] at h
    have hs1 : s1 = recordTransition t s.available
        (applyBatch t s).available (applyBatch t s) := by
      cases h
      rfl
    rw [hs1, simMeasure_record]
    have hsrc := eventTime_source ht
    have hple := cursorTotal_applyPlain_le t s
    have hble := cursorTotal_applyBad_le t (applyTimers t (applyPlain t s))
    have harm5 := armedCount_le_five
      (applyBadReleases t (applyTimers t (applyPlain t s)))
    have harmle := armedCount_applyTimers_le t (applyPlain t s)
    have hct : cursorTotal (applyTimers t (applyPlain t s))
        = cursorTotal (applyPlain t s) := rfl
    have harmp : armedCount (applyPlain t s) = armedCount s := rfl
    rcases hsrc with hsrc | hsrc | hsrc | hsrc | hsrc | hsrc | hsrc | hsrc
      | hsrc | hsrc | hsrc
    -- a plain release cursor head equals the event time
    · have h1 := popIfEq_length_lt t s.relA hsrc
      have h2 := popIfEq_length_le t s.relB
      have h3 := popIfEq_length_le t s.relC
      have hcur : cursorTotal (applyPlain t s) + 1 ≤ cursorTotal s := by
        unfold cursorTotal applyPlain
        dsimp only
        omega
      unfold simMeasure applyBatch
      omega
    · have h1 := popIfEq_length_lt t s.relB hsrc
      have h2 := popIfEq_length_le t s.relA
      have h3 := popIfEq_length_le t s.relC
      have hcur : cursorTotal (applyPlain t s) + 1 ≤ cursorTotal s := by
        unfold cursorTotal applyPlain
        dsimp only
        omega
      unfold simMeasure applyBatch
      omega
    · have h1 := popIfEq_length_lt t s.relC hsrc
      have h2 := popIfEq_length_le t s.relA
      have h3 := popIfEq_length_le t s.relB
      have hcur : cursorTotal (applyPlain t s) + 1 ≤ cursorTotal s := by
        unfold cursorTotal applyPlain
        dsimp only
        omega
      unfold simMeasure applyBatch
      omega
    -- a bad release cursor head equals the event time
    · have hfire := cursorTotal_applyBad_fire t
        (applyTimers t (applyPlain t s)) (by simp [hsrc])
      unfold simMeasure applyBatch
      omega
    · have hfire := cursorTotal_applyBad_fire t
        (applyTimers t (applyPlain t s)) (by simp [hsrc])
      unfold simMeasure applyBatch
      omega
    · have hfire := cursorTotal_applyBad_fire t
        (applyTimers t (applyPlain t s)) (by simp [hsrc])
      unfold simMeasure applyBatch
      omega
    -- a timer equals the event time
    · exact timer_case_simMeasure_lt (by tauto)
    · exact timer_case_simMeasure_lt (by tauto)
    · exact timer_case_simMeasure_lt (by tauto)
    · exact timer_case_simMeasure_lt (by tauto)
    · exact timer_case_simMeasure_lt (by tauto)

/-- The event loop terminates within any fuel exceeding the measure. -/
theorem simLoop_total : ∀ (n : ℕ) (s : SimState), simMeasure s < n →
    ∃ f, simLoop n s = some f := by
  intro n
  induction n with
  | zero => intro s h; omega
  | succ n ih =>
    intro s h
    cases hs : s.step with
    | none => exact ⟨s, by rw [simLoop, hs]⟩
    | some s1 =>
      obtain ⟨f, hf⟩ := ih s1 (by
        have := step_simMeasure_lt hs
        omega)
      exact ⟨f, by rw [simLoop, hs]; exact hf⟩

/-! ### The downtime potential -/

/-- Remaining life of a timer relative to a reference time. -/
def slack (t : ℕ) (o : Option ℕ) : ℕ :=
  match o with
  | none => 0
  | some v => v - t

/-- Total remaining life of the three outage timers. -/
def availSlack (s : SimState) (t : ℕ) : ℕ :=
  slack t s.aAvailableIn + slack t s.bAvailableIn + slack t s.cAvailableIn

/-- Length of the currently open downtime interval up to the reference
time. -/
def openContrib (s : SimState) (t : ℕ) : ℕ :=
  match s.openStart with
  | none => 0
  | some v => t - v

/-- Number of bad releases still pending over all three nodes. -/
def badTotal (s : SimState) : ℕ :=
  s.badA.length + s.badB.length + s.badC.length

theorem slack_none (t : ℕ) : slack t none = 0 := rfl

theorem slack_some (t v : ℕ) : slack t (some v) = v - t := rfl

theorem slack_mono (t t1 : ℕ) (o : Option ℕ) (h : t ≤ t1) :
    slack t1 o ≤ slack t o := by
  cases o <;> simp [slack] <;> omega

theorem slack_exact {t t1 v : ℕ} {o : Option ℕ} (ho : o = some v)
    (h1 : t ≤ t1) (h2 : t1 ≤ v) : slack t1 o + (t1 - t) = slack t o := by
  subst ho
  simp [slack]
  omega

theorem slack_clearIfEq (t : ℕ) (o : Option ℕ) :
    slack t (clearIfEq t o) = slack t o := by
  unfold clearIfEq
  split_ifs with h
  · subst h
    simp [slack]
  · rfl

theorem openContrib_shift {s : SimState} {t t1 v : ℕ}
    (ho : s.openStart = some v) (hv : v ≤ t) (h1 : t ≤ t1) :
    openContrib s t1 = openContrib s t + (t1 - t) := by
  simp only [openContrib, ho]
  omega

theorem openContrib_none {s : SimState} {t : ℕ} (ho : s.openStart = none) :
    openContrib s t = 0 := by
  unfold openContrib
  rw [ho]

/-- A state with an armed outage timer is unavailable. -/
theorem unavailable_of_armed {s : SimState}
    (h : s.aAvailableIn.isSome = true
      ∨ (s.bAvailableIn.isSome = true ∧ s.bCacheFullIn.isSome = true)
      ∨ (s.cAvailableIn.isSome = true ∧ s.cCacheFullIn.isSome = true)) :
    s.available = false := by
  unfold SimState.available is_now_available
  cases ha : s.aAvailableIn <;> cases hb : s.bAvailableIn <;>
    cases hc : s.cAvailableIn <;> cases hbc : s.bCacheFullIn <;>
    cases hcc : s.cCacheFullIn <;> simp_all

/-- An unavailable state has at least one armed outage timer. -/
theorem armed_of_unavailable {s : SimState} (h : s.available = false) :
    s.aAvailableIn.isSome = true ∨ s.bAvailableIn.isSome = true
      ∨ s.cAvailableIn.isSome = true := by
  unfold SimState.available is_now_available at h
  cases ha : s.aAvailableIn <;> cases hb : s.bAvailableIn <;>
    cases hc : s.cAvailableIn <;> simp_all

/-- A value held by any of the five timers is a candidate event time. -/
theorem timer_mem_candidates {s : SimState} {v : ℕ}
    (h : s.bCacheFullIn = some v ∨ s.cCacheFullIn = some v
      ∨ s.aAvailableIn = some v ∨ s.bAvailableIn = some v
      ∨ s.cAvailableIn = some v) :
    v ∈ (candidates s).filterMap id := by
  rw [List.mem_filterMap]
  exact ⟨some v, by simp [candidates]; tauto, rfl⟩

/-! ### Field characterizations of the bad-release phase -/

theorem applyBadReleases_aAvail (t : ℕ) (s : SimState) :
    (applyBadReleases t s).aAvailableIn =
      if s.badA.head? = some t then some (t + UNAVAILABLE_TIME_AFTER_BAD)
      else s.aAvailableIn := by
  unfold applyBadReleases
  by_cases hA : s.badA.head? = some t <;> by_cases hB : s.badB.head? = some t
    <;> by_cases hC : s.badC.head? = some t <;> simp [hA, hB, hC]

theorem applyBadReleases_bAvail (t : ℕ) (s : SimState) :
    (applyBadReleases t s).bAvailableIn =
      if s.badB.head? = some t then some (t + UNAVAILABLE_TIME_AFTER_BAD)
      else s.bAvailableIn := by
  unfold applyBadReleases
  by_cases hA : s.badA.head? = some t <;> by_cases hB : s.badB.head? = some t
    <;> by_cases hC : s.badC.head? = some t <;> simp [hA, hB, hC]

theorem applyBadReleases_cAvail (t : ℕ) (s : SimState) :
    (applyBadReleases t s).cAvailableIn =
      if s.badC.head? = some t then some (t + UNAVAILABLE_TIME_AFTER_BAD)
      else s.cAvailableIn := by
  unfold applyBadReleases
  by_cases hA : s.badA.head? = some t <;> by_cases hB : s.badB.head? = some t
    <;> by_cases hC : s.badC.head? = some t <;> simp [hA, hB, hC]

theorem applyBadReleases_bCache (t : ℕ) (s : SimState) :
    (applyBadReleases t s).bCacheFullIn =
      if s.badA.head? = some t then some (t + TIME_TO_B_CACHE)
      else s.bCacheFullIn := by
  unfold applyBadReleases
  by_cases hA : s.badA.head? = some t <;> by_cases hB : s.badB.head? = some t
    <;> by_cases hC : s.badC.head? = some t <;> simp [hA, hB, hC]

theorem applyBadReleases_cCache (t : ℕ) (s : SimState) :
    (applyBadReleases t s).cCacheFullIn =
      if s.badA.head? = some t then some (t + TIME_TO_C_CACHE)
      else s.cCacheFullIn := by
  unfold applyBadReleases
  by_cases hA : s.badA.head? = some t <;> by_cases hB : s.badB.head? = some t
    <;> by_cases hC : s.badC.head? = some t <;> simp [hA, hB, hC]

theorem badTotal_applyBad_le (t : ℕ) (s : SimState) :
    badTotal (applyBadReleases t s) ≤ badTotal s := by
  have hA := condTail_length_le t s.badA
  have hB := condTail_length_le t s.badB
  have hC := condTail_length_le t s.badC
  unfold badTotal
  rw [applyBadReleases_badA, applyBadReleases_badB, applyBadReleases_badC]
  omega

theorem badTotal_applyBad_fire (t : ℕ) (s : SimState)
    (h : s.badA.head? = some t ∨ s.badB.head? = some t
      ∨ s.badC.head? = some t) :
    badTotal (applyBadReleases t s) + 1 ≤ badTotal s := by
  have hA := condTail_length_le t s.badA
  have hB := condTail_length_le t s.badB
  have hC := condTail_length_le t s.badC
  unfold badTotal
  rw [applyBadReleases_badA, applyBadReleases_badB, applyBadReleases_badC]
  rcases h with h | h | h
  · have h4 := condTail_length_eq h
    omega
  · have h4 := condTail_length_eq h
    omega
  · have h4 := condTail_length_eq h
    omega

/-- Clearing timers can only turn an available state more available. -/
theorem applyTimers_avail_mono {s : SimState} (t : ℕ)
    (h : s.available = true) : (applyTimers t s).available = true := by
  unfold SimState.available is_now_available at h ⊢
  rw [applyTimers_bCache, applyTimers_cCache, applyTimers_aAvail,
    applyTimers_bAvail, applyTimers_cAvail]
  unfold clearIfEq
  cases ha : s.aAvailableIn <;> cases hb : s.bAvailableIn <;>
    cases hc : s.cAvailableIn <;> cases hbc : s.bCacheFullIn <;>
    cases hcc : s.cCacheFullIn <;> simp_all <;> split_ifs <;> simp_all

/-- The plain-release phase never changes availability. -/
theorem applyPlain_avail (t : ℕ) (s : SimState) :
    (applyPlain t s).available = s.available := rfl

/-! ### Case equations for the transition recorder -/

theorem record_tt (t : ℕ) (x : SimState) :
    recordTransition t true true x = x := by
  unfold recordTransition
  simp

theorem record_ff (t : ℕ) (x : SimState) :
    recordTransition t false false x = x := by
  unfold recordTransition
  simp

theorem record_tf (t : ℕ) (x : SimState) :
    recordTransition t true false x = { x with openStart := some t } := by
  unfold recordTransition
  simp

theorem record_ft (t : ℕ) (x : SimState) :
    recordTransition t false true x =
      { x with downs := x.downs ++ [(x.openStart.getD 0, t)],
               openStart := none } := by
  unfold recordTransition
  simp

theorem candidates_record (t : ℕ) (b a : Bool) (x : SimState) :
    candidates (recordTransition t b a x) = candidates x := by
  unfold candidates
  simp

/-! ### The potentials across the batch phases -/

theorem head_some_length_pos {t : ℕ} {l : List ℕ} (h : l.head? = some t) :
    1 ≤ l.length := by
  cases l with
  | nil => simp at h
  | cons x xs => simp

theorem clearIfEq_inv {t v : ℕ} {o : Option ℕ}
    (h : clearIfEq t o = some v) : o = some v ∧ ¬ v = t := by
  unfold clearIfEq at h
  split_ifs at h with h1
  simp_all

theorem availSlack_applyPlain (t : ℕ) (s : SimState) :
    availSlack (applyPlain t s) t = availSlack s t := rfl

theorem availSlack_applyTimers (t : ℕ) (s : SimState) :
    availSlack (applyTimers t s) t = availSlack s t := by
  unfold availSlack
  rw [applyTimers_aAvail, applyTimers_bAvail, applyTimers_cAvail,
    slack_clearIfEq, slack_clearIfEq, slack_clearIfEq]

theorem phiUp_bad (t : ℕ) (z : SimState) :
    availSlack (applyBadReleases t z) t
        + 9 * badTotal (applyBadReleases t z)
      ≤ availSlack z t + 9 * badTotal z := by
  have tA : z.badA.tail.length = z.badA.length - 1 := by simp
  have tB : z.badB.tail.length = z.badB.length - 1 := by simp
  have tC : z.badC.tail.length = z.badC.length - 1 := by simp
  unfold availSlack badTotal
  rw [applyBadReleases_aAvail, applyBadReleases_bAvail,
    applyBadReleases_cAvail, applyBadReleases_badA, applyBadReleases_badB,
    applyBadReleases_badC]
  by_cases hA : z.badA.head? = some t <;> by_cases hB : z.badB.head? = some t
    <;> by_cases hC : z.badC.head? = some t
  · have pA := head_some_length_pos hA
    have pB := head_some_length_pos hB
    have pC := head_some_length_pos hC
    simp only [hA, hB, hC, if_true, if_pos, slack_some,
      UNAVAILABLE_TIME_AFTER_BAD]
    omega
  · have pA := head_some_length_pos hA
    have pB := head_some_length_pos hB
    simp only [hA, hB, hC, if_true, if_false, if_pos, if_neg,
      not_false_iff, slack_some, UNAVAILABLE_TIME_AFTER_BAD]
    omega
  · have pA := head_some_length_pos hA
    have pC := head_some_length_pos hC
    simp only [hA, hB, hC, if_true, if_false, if_pos, if_neg,
      not_false_iff, slack_some, UNAVAILABLE_TIME_AFTER_BAD]
    omega
  · have pA := head_some_length_pos hA
    simp only [hA, hB, hC, if_true, if_false, if_pos, if_neg,
      not_false_iff, slack_some, UNAVAILABLE_TIME_AFTER_BAD]
    omega
  · have pB := head_some_length_pos hB
    have pC := head_some_length_pos hC
    simp only [hA, hB, hC, if_true, if_false, if_pos, if_neg,
      not_false_iff, slack_some, UNAVAILABLE_TIME_AFTER_BAD]
    omega
  · have pB := head_some_length_pos hB
    simp only [hA, hB, hC, if_true, if_false, if_pos, if_neg,
      not_false_iff, slack_some, UNAVAILABLE_TIME_AFTER_BAD]
    omega
  · have pC := head_some_length_pos hC
    simp only [hA, hB, hC, if_true, if_false, if_pos, if_neg,
      not_false_iff, slack_some, UNAVAILABLE_TIME_AFTER_BAD]
    omega
  · simp only [hA, hB, hC, if_false, if_neg, not_false_iff]
    omega

theorem phiDown_bad (t : ℕ) (z : SimState)
    (hfresh : z.badA.head? = some t → z.aAvailableIn = none) :
    slack t (applyBadReleases t z).aAvailableIn
        + 9 * (applyBadReleases t z).badA.length
      = slack t z.aAvailableIn + 9 * z.badA.length := by
  have tA : z.badA.tail.length = z.badA.length - 1 := by simp
  rw [applyBadReleases_aAvail, applyBadReleases_badA]
  by_cases hA : z.badA.head? = some t
  · have pA := head_some_length_pos hA
    rw [hfresh hA]
    simp only [hA, if_true, if_pos, slack_some, slack_none,
      UNAVAILABLE_TIME_AFTER_BAD]
    omega
  · simp only [hA, if_false, if_neg, not_false_iff]

/-! ### Cursor helpers -/

theorem popIfEq_pairwise {R : ℕ → ℕ → Prop} {l : List ℕ} (t : ℕ)
    (h : l.Pairwise R) : (popIfEq t l).Pairwise R := by
  unfold popIfEq
  split_ifs
  · exact h.tail
  · exact h

theorem popIfEq_head_ge {l : List ℕ} {t v : ℕ}
    (hpw : l.Pairwise (· ≤ ·)) (hge : ∀ w, l.head? = some w → t ≤ w)
    (h : (popIfEq t l).head? = some v) : t ≤ v := by
  unfold popIfEq at h
  split_ifs at h with h1
  · cases l with
    | nil => simp at h1
    | cons x xs =>
      have hx : x = t := by simpa using h1
      have hv : v ∈ xs := by
        cases xs with
        | nil => simp at h
        | cons y ys =>
          simp at h
          subst h
          simp
      have := (List.pairwise_cons.mp hpw).1 v hv
      omega
  · exact hge v h

theorem clearIfEq_some_ge {t v : ℕ} {o : Option ℕ}
    (hge : ∀ w, o = some w → t ≤ w) (h : clearIfEq t o = some v) :
    t ≤ v :=
  hge v (clearIfEq_inv h).1

/-- Membership among the candidate values pinpoints a cursor head or a
timer. -/
theorem candidates_sources {s : SimState} {v : ℕ}
    (h : v ∈ (candidates s).filterMap id) :
    s.relA.head? = some v ∨ s.relB.head? = some v ∨ s.relC.head? = some v
      ∨ s.badA.head? = some v ∨ s.badB.head? = some v
      ∨ s.badC.head? = some v
      ∨ s.bCacheFullIn = some v ∨ s.cCacheFullIn = some v
      ∨ s.aAvailableIn = some v ∨ s.bAvailableIn = some v
      ∨ s.cAvailableIn = some v := by
  rw [List.mem_filterMap] at h
  obtain ⟨o, ho, hot⟩ := h
  simp only [id] at hot
  subst hot
  simp only [candidates, List.mem_cons, List.not_mem_nil, or_false] at ho
  tauto

/-- Inductive invariant of the event loop, relative to the last processed
event time `t`.  `openIff` ties the open-interval marker to the
availability predicate; `candGe` says no candidate lies in the past;
the `pw` fields keep the cursors sorted (and A's bad cursor spaced by
more than `MIN_TIME_BETWEEN_RELEASES`); `aaFresh` says A's pending bad
releases lie strictly beyond A's armed outage timer; `phiUp` and
`phiDown` are the potentials bounding the recorded downtime from above
and below; `lenBound` bounds the number of recorded intervals. -/
structure Inv (s : SimState) (t : ℕ) : Prop where
  openIff : s.openStart.isSome = !s.available
  openLe : ∀ v, s.openStart = some v → v ≤ t
  candGe : ∀ x ∈ (candidates s).filterMap id, t ≤ x
  pwRelA : s.relA.Pairwise (· ≤ ·)
  pwRelB : s.relB.Pairwise (· ≤ ·)
  pwRelC : s.relC.Pairwise (· ≤ ·)
  pwBadA : s.badA.Pairwise (fun x y => x + MIN_TIME_BETWEEN_RELEASES < y)
  pwBadB : s.badB.Pairwise (· ≤ ·)
  pwBadC : s.badC.Pairwise (· ≤ ·)
  aaFresh : ∀ v, s.aAvailableIn = some v → ∀ x ∈ s.badA, v < x
  phiUp : downTime s + openContrib s t + availSlack s t
      + 9 * badTotal s ≤ 81
  phiDown : 27 ≤ downTime s + openContrib s t + slack t s.aAvailableIn
      + 9 * s.badA.length
  lenBound : s.downs.length + (if s.openStart.isSome then 1 else 0)
      + badTotal s ≤ 9

theorem phiUp_shift {s : SimState} {t t1 : ℕ} (inv : Inv s t) (h1 : t ≤ t1)
    (hge : ∀ x ∈ (candidates s).filterMap id, t1 ≤ x) :
    downTime s + openContrib s t1 + availSlack s t1
      + 9 * badTotal s ≤ 81 := by
  have hUp := inv.phiUp
  have ma := slack_mono t t1 s.aAvailableIn h1
  have mb := slack_mono t t1 s.bAvailableIn h1
  have mc := slack_mono t t1 s.cAvailableIn h1
  cases ho : s.openStart with
  | none =>
    simp only [openContrib_none ho] at hUp ⊢
    unfold availSlack at hUp ⊢
    omega
  | some v =>
    have hvle : v ≤ t := inv.openLe v ho
    have hshift := openContrib_shift ho hvle h1
    have hopen : s.openStart.isSome = true := by rw [ho]; rfl
    have hav : s.available = false := by
      have hio := inv.openIff
      rw [hopen] at hio
      cases hb : s.available
      · rfl
      · rw [hb] at hio
        simp at hio
    rcases armed_of_unavailable hav with hw | hw | hw
    · obtain ⟨w, hwv⟩ := Option.isSome_iff_exists.mp hw
      have hwge : t1 ≤ w := hge w (timer_mem_candidates (by tauto))
      have hex := slack_exact hwv h1 hwge
      unfold availSlack at hUp ⊢
      omega
    · obtain ⟨w, hwv⟩ := Option.isSome_iff_exists.mp hw
      have hwge : t1 ≤ w := hge w (timer_mem_candidates (by tauto))
      have hex := slack_exact hwv h1 hwge
      unfold availSlack at hUp ⊢
      omega
    · obtain ⟨w, hwv⟩ := Option.isSome_iff_exists.mp hw
      have hwge : t1 ≤ w := hge w (timer_mem_candidates (by tauto))
      have hex := slack_exact hwv h1 hwge
      unfold availSlack at hUp ⊢
      omega

theorem phiDown_shift {s : SimState} {t t1 : ℕ} (inv : Inv s t)
    (h1 : t ≤ t1)
    (hge : ∀ x ∈ (candidates s).filterMap id, t1 ≤ x) :
    27 ≤ downTime s + openContrib s t1 + slack t1 s.aAvailableIn
      + 9 * s.badA.length := by
  have hDown := inv.phiDown
  cases haa : s.aAvailableIn with
  | none =>
    rw [haa, slack_none] at hDown
    rw [slack_none]
    cases ho : s.openStart with
    | none =>
      simp only [openContrib_none ho] at hDown ⊢
      omega
    | some v =>
      have := openContrib_shift ho (inv.openLe v ho) h1
      omega
  | some w =>
    have hwge : t1 ≤ w := hge w (timer_mem_candidates (by tauto))
    have hav : s.available = false := by
      apply unavailable_of_armed
      left
      rw [haa]
      rfl
    have hopen : s.openStart.isSome = true := by
      rw [inv.openIff, hav]
      rfl
    obtain ⟨v, hv⟩ := Option.isSome_iff_exists.mp hopen
    have hshift := openContrib_shift hv (inv.openLe v hv) h1
    have hex := slack_exact haa h1 hwge
    rw [haa] at hex hDown
    omega

/-! ### Whole-batch field characterizations -/

theorem applyBatch_relA (t : ℕ) (s : SimState) :
    (applyBatch t s).relA = popIfEq t s.relA := by
  unfold applyBatch
  rw [applyBadReleases_relA]
  rfl

theorem applyBatch_relB (t : ℕ) (s : SimState) :
    (applyBatch t s).relB = popIfEq t s.relB := by
  unfold applyBatch
  rw [applyBadReleases_relB]
  rfl

theorem applyBatch_relC (t : ℕ) (s : SimState) :
    (applyBatch t s).relC = popIfEq t s.relC := by
  unfold applyBatch
  rw [applyBadReleases_relC]
  rfl

theorem applyBatch_badA (t : ℕ) (s : SimState) :
    (applyBatch t s).badA = popIfEq t s.badA := by
  unfold applyBatch
  rw [applyBadReleases_badA]
  rfl

theorem applyBatch_badB (t : ℕ) (s : SimState) :
    (applyBatch t s).badB = popIfEq t s.badB := by
  unfold applyBatch
  rw [applyBadReleases_badB]
  rfl

theorem applyBatch_badC (t : ℕ) (s : SimState) :
    (applyBatch t s).badC = popIfEq t s.badC := by
  unfold applyBatch
  rw [applyBadReleases_badC]
  rfl

theorem applyBatch_aAvail (t : ℕ) (s : SimState) :
    (applyBatch t s).aAvailableIn =
      if s.badA.head? = some t then some (t + UNAVAILABLE_TIME_AFTER_BAD)
      else clearIfEq t s.aAvailableIn := by
  unfold applyBatch
  rw [applyBadReleases_aAvail]
  rfl

theorem applyBatch_bAvail (t : ℕ) (s : SimState) :
    (applyBatch t s).bAvailableIn =
      if s.badB.head? = some t then some (t + UNAVAILABLE_TIME_AFTER_BAD)
      else clearIfEq t s.bAvailableIn := by
  unfold applyBatch
  rw [applyBadReleases_bAvail]
  rfl

theorem applyBatch_cAvail (t : ℕ) (s : SimState) :
    (applyBatch t s).cAvailableIn =
      if s.badC.head? = some t then some (t + UNAVAILABLE_TIME_AFTER_BAD)
      else clearIfEq t s.cAvailableIn := by
  unfold applyBatch
  rw [applyBadReleases_cAvail]
  rfl

theorem applyBatch_bCache (t : ℕ) (s : SimState) :
    (applyBatch t s).bCacheFullIn =
      if s.badA.head? = some t then some (t + TIME_TO_B_CACHE)
      else clearIfEq t s.bCacheFullIn := by
  unfold applyBatch
  rw [applyBadReleases_bCache]
  rfl

theorem applyBatch_cCache (t : ℕ) (s : SimState) :
    (applyBatch t s).cCacheFullIn =
      if s.badA.head? = some t then some (t + TIME_TO_C_CACHE)
      else clearIfEq t s.cCacheFullIn := by
  unfold applyBatch
  rw [applyBadReleases_cCache]
  rfl

theorem applyBatch_downs (t : ℕ) (s : SimState) :
    (applyBatch t s).downs = s.downs := by
  simp [applyBatch]

theorem applyBatch_openStart (t : ℕ) (s : SimState) :
    (applyBatch t s).openStart = s.openStart := by
  simp [applyBatch]

theorem head?_memList {l : List ℕ} {v : ℕ} (h : l.head? = some v) :
    v ∈ l := by
  cases l with
  | nil => simp at h
  | cons x xs =>
    simp only [List.head?_cons, Option.some.injEq] at h
    subst h
    simp

theorem cursor_mem_candidates {s : SimState} {v : ℕ}
    (h : s.relA.head? = some v ∨ s.relB.head? = some v
      ∨ s.relC.head? = some v ∨ s.badA.head? = some v
      ∨ s.badB.head? = some v ∨ s.badC.head? = some v) :
    v ∈ (candidates s).filterMap id := by
  rw [List.mem_filterMap]
  refine ⟨some v, ?_, rfl⟩
  simp only [candidates, List.mem_cons]
  tauto

/-- All candidates of the post-batch state are at or beyond the batch
time. -/
theorem batch_candGe {s : SimState} {t1 : ℕ}
    (hge : ∀ x ∈ (candidates s).filterMap id, t1 ≤ x)
    (pwA : s.relA.Pairwise (· ≤ ·)) (pwB : s.relB.Pairwise (· ≤ ·))
    (pwC : s.relC.Pairwise (· ≤ ·)) (pwDA : s.badA.Pairwise (· ≤ ·))
    (pwDB : s.badB.Pairwise (· ≤ ·)) (pwDC : s.badC.Pairwise (· ≤ ·)) :
    ∀ x ∈ (candidates (applyBatch t1 s)).filterMap id, t1 ≤ x := by
  intro x hx
  rcases candidates_sources hx with hx1 | hx1 | hx1 | hx1 | hx1 | hx1 | hx1
    | hx1 | hx1 | hx1 | hx1
  · rw [applyBatch_relA] at hx1
    exact popIfEq_head_ge pwA
      (fun w hw => hge w (cursor_mem_candidates (by tauto))) hx1
  · rw [applyBatch_relB] at hx1
    exact popIfEq_head_ge pwB
      (fun w hw => hge w (cursor_mem_candidates (by tauto))) hx1
  · rw [applyBatch_relC] at hx1
    exact popIfEq_head_ge pwC
      (fun w hw => hge w (cursor_mem_candidates (by tauto))) hx1
  · rw [applyBatch_badA] at hx1
    exact popIfEq_head_ge pwDA
      (fun w hw => hge w (cursor_mem_candidates (by tauto))) hx1
  · rw [applyBatch_badB] at hx1
    exact popIfEq_head_ge pwDB
      (fun w hw => hge w (cursor_mem_candidates (by tauto))) hx1
  · rw [applyBatch_badC] at hx1
    exact popIfEq_head_ge pwDC
      (fun w hw => hge w (cursor_mem_candidates (by tauto))) hx1
  · rw [applyBatch_bCache] at hx1
    split_ifs at hx1 with hA
    · have : x = t1 + TIME_TO_B_CACHE := by simpa using hx1.symm
      omega
    · exact clearIfEq_some_ge
        (fun w hw => hge w (timer_mem_candidates (by tauto))) hx1
  · rw [applyBatch_cCache] at hx1
    split_ifs at hx1 with hA
    · have : x = t1 + TIME_TO_C_CACHE := by simpa using hx1.symm
      omega
    · exact clearIfEq_some_ge
        (fun w hw => hge w (timer_mem_candidates (by tauto))) hx1
  · rw [applyBatch_aAvail] at hx1
    split_ifs at hx1 with hA
    · have : x = t1 + UNAVAILABLE_TIME_AFTER_BAD := by simpa using hx1.symm
      omega
    · exact clearIfEq_some_ge
        (fun w hw => hge w (timer_mem_candidates (by tauto))) hx1
  · rw [applyBatch_bAvail] at hx1
    split_ifs at hx1 with hA
    · have : x = t1 + UNAVAILABLE_TIME_AFTER_BAD := by simpa using hx1.symm
      omega
    · exact clearIfEq_some_ge
        (fun w hw => hge w (timer_mem_candidates (by tauto))) hx1
  · rw [applyBatch_cAvail] at hx1
    split_ifs at hx1 with hA
    · have : x = t1 + UNAVAILABLE_TIME_AFTER_BAD := by simpa using hx1.symm
      omega
    · exact clearIfEq_some_ge
        (fun w hw => hge w (timer_mem_candidates (by tauto))) hx1

/-- The freshness of A's outage timer against A's remaining bad releases
survives the batch. -/
theorem batch_aaFresh (t1 : ℕ) {s : SimState}
    (pwGap : s.badA.Pairwise
      (fun x y => x + MIN_TIME_BETWEEN_RELEASES < y))
    (aaOld : ∀ v, s.aAvailableIn = some v → ∀ x ∈ s.badA, v < x) :
    ∀ v, (applyBatch t1 s).aAvailableIn = some v →
      ∀ x ∈ (applyBatch t1 s).badA, v < x := by
  intro v hv x hx
  rw [applyBatch_aAvail] at hv
  rw [applyBatch_badA] at hx
  unfold popIfEq at hx
  by_cases hA : s.badA.head? = some t1
  · rw [if_pos hA] at hv
    rw [if_pos hA] at hx
    have hv9 : v = t1 + UNAVAILABLE_TIME_AFTER_BAD := by
      simpa using hv.symm
    cases hl : s.badA with
    | nil =>
      rw [hl] at hx
      simp at hx
    | cons y ys =>
      have hy : y = t1 := by
        rw [hl] at hA
        simpa using hA
      have hpw := hl ▸ pwGap
      have hgap := (List.pairwise_cons.mp hpw).1 x (by
        rw [hl] at hx
        simpa using hx)
      unfold MIN_TIME_BETWEEN_RELEASES at hgap
      unfold UNAVAILABLE_TIME_AFTER_BAD at hv9
      omega
  · rw [if_neg hA] at hv
    rw [if_neg hA] at hx
    obtain ⟨hvs, hne⟩ := clearIfEq_inv hv
    exact aaOld v hvs x hx

/-- Projection equations of the transition recorder. -/
theorem record_downs_tt (t : ℕ) (x : SimState) :
    (recordTransition t true true x).downs = x.downs := by
  rw [record_tt]

theorem record_open_tt (t : ℕ) (x : SimState) :
    (recordTransition t true true x).openStart = x.openStart := by
  rw [record_tt]

theorem record_downs_ff (t : ℕ) (x : SimState) :
    (recordTransition t false false x).downs = x.downs := by
  rw [record_ff]

theorem record_open_ff (t : ℕ) (x : SimState) :
    (recordTransition t false false x).openStart = x.openStart := by
  rw [record_ff]

theorem record_downs_tf (t : ℕ) (x : SimState) :
    (recordTransition t true false x).downs = x.downs := by
  rw [record_tf]

theorem record_open_tf (t : ℕ) (x : SimState) :
    (recordTransition t true false x).openStart = some t := by
  rw [record_tf]

theorem record_downs_ft (t : ℕ) (x : SimState) :
    (recordTransition t false true x).downs
      = x.downs ++ [(x.openStart.getD 0, t)] := by
  rw [record_ft]

theorem record_open_ft (t : ℕ) (x : SimState) :
    (recordTransition t false true x).openStart = none := by
  rw [record_ft]

theorem availSlack_record (t u : ℕ) (b a : Bool) (x : SimState) :
    availSlack (recordTransition t b a x) u = availSlack x u := by
  unfold availSlack
  simp only [recordTransition_aAvail, recordTransition_bAvail,
    recordTransition_cAvail]

theorem badTotal_record (t : ℕ) (b a : Bool) (x : SimState) :
    badTotal (recordTransition t b a x) = badTotal x := by
  unfold badTotal
  simp only [recordTransition_badA, recordTransition_badB,
    recordTransition_badC]

/-- The invariant is preserved by one iteration of the event loop. -/
theorem Inv_step {s s1 : SimState} {t : ℕ} (inv : Inv s t)
    (h : s.step = some s1) : ∃ t1, t ≤ t1 ∧ Inv s1 t1 := by
  cases ht : nextEventTime s with
  | none =>
    rw [SimState.step, ht] at h
    cases h
  | some t1 =>
    rw [SimState.step, ht] at h
    have hs1 : s1 = recordTransition t1 s.available
        (applyBatch t1 s).available (applyBatch t1 s) := by
      cases h
      rfl
    subst hs1
    have htle : t ≤ t1 := inv.candGe t1 (nextEventTime_mem ht)
    have hge : ∀ x ∈ (candidates s).filterMap id, t1 ≤ x :=
      nextEventTime_le ht
    refine ⟨t1, htle, ?_⟩
    -- facts about the batched state
    have pwA2 : (applyBatch t1 s).relA.Pairwise (· ≤ ·) := by
      rw [applyBatch_relA]
      exact popIfEq_pairwise t1 inv.pwRelA
    have pwB2 : (applyBatch t1 s).relB.Pairwise (· ≤ ·) := by
      rw [applyBatch_relB]
      exact popIfEq_pairwise t1 inv.pwRelB
    have pwC2 : (applyBatch t1 s).relC.Pairwise (· ≤ ·) := by
      rw [applyBatch_relC]
      exact popIfEq_pairwise t1 inv.pwRelC
    have pwDA2 : (applyBatch t1 s).badA.Pairwise
        (fun x y => x + MIN_TIME_BETWEEN_RELEASES < y) := by
      rw [applyBatch_badA]
      exact popIfEq_pairwise t1 inv.pwBadA
    have pwDB2 : (applyBatch t1 s).badB.Pairwise (· ≤ ·) := by
      rw [applyBatch_badB]
      exact popIfEq_pairwise t1 inv.pwBadB
    have pwDC2 : (applyBatch t1 s).badC.Pairwise (· ≤ ·) := by
      rw [applyBatch_badC]
      exact popIfEq_pairwise t1 inv.pwBadC
    have pwDAle : s.badA.Pairwise (· ≤ ·) :=
      inv.pwBadA.imp (fun hxy => by omega)
    have hcand2 := batch_candGe hge inv.pwRelA inv.pwRelB inv.pwRelC
      pwDAle inv.pwBadB inv.pwBadC
    have hfresh2 := batch_aaFresh t1 inv.pwBadA inv.aaFresh
    have eDT : downTime (applyBatch t1 s) = downTime s := by
      unfold downTime
      rw [applyBatch_downs]
    have hbtle : badTotal (applyBatch t1 s) ≤ badTotal s := by
      unfold applyBatch
      have h1 := badTotal_applyBad_le t1 (applyTimers t1 (applyPlain t1 s))
      have h2 : badTotal (applyTimers t1 (applyPlain t1 s)) = badTotal s :=
        rfl
      omega
    have hUpBatch : availSlack (applyBatch t1 s) t1
        + 9 * badTotal (applyBatch t1 s)
        ≤ availSlack s t1 + 9 * badTotal s := by
      unfold applyBatch
      have h1 := phiUp_bad t1 (applyTimers t1 (applyPlain t1 s))
      have h2 : availSlack (applyTimers t1 (applyPlain t1 s)) t1
          = availSlack s t1 :=
        (availSlack_applyTimers t1 (applyPlain t1 s)).trans rfl
      have h3 : badTotal (applyTimers t1 (applyPlain t1 s)) = badTotal s :=
        rfl
      omega
    have hfresh : (applyTimers t1 (applyPlain t1 s)).badA.head? = some t1 →
        (applyTimers t1 (applyPlain t1 s)).aAvailableIn = none := by
      intro hhead
      have hheadS : s.badA.head? = some t1 := hhead
      rw [applyTimers_aAvail]
      cases hcl : clearIfEq t1 (applyPlain t1 s).aAvailableIn with
      | none => rfl
      | some w =>
        exfalso
        obtain ⟨haaw, hwne⟩ := clearIfEq_inv hcl
        have haaw1 : s.aAvailableIn = some w := haaw
        have hwlt : w < t1 :=
          inv.aaFresh w haaw1 t1 (head?_memList hheadS)
        have hwge : t1 ≤ w := hge w (timer_mem_candidates (by tauto))
        omega
    have hDownBatch : slack t1 (applyBatch t1 s).aAvailableIn
        + 9 * (applyBatch t1 s).badA.length
        = slack t1 s.aAvailableIn + 9 * s.badA.length := by
      unfold applyBatch
      have h1 := phiDown_bad t1 (applyTimers t1 (applyPlain t1 s)) hfresh
      have h2 : slack t1 (applyTimers t1 (applyPlain t1 s)).aAvailableIn
          = slack t1 s.aAvailableIn := by
        rw [applyTimers_aAvail]
        exact slack_clearIfEq t1 (applyPlain t1 s).aAvailableIn
      have h3 : (applyTimers t1 (applyPlain t1 s)).badA.length
          = s.badA.length := rfl
      omega
    have hup1 := phiUp_shift inv htle hge
    have hdn1 := phiDown_shift inv htle hge
    cases hb : s.available <;> cases ha : (applyBatch t1 s).available
    -- before = false, after = false: no transition
    · have eol : (recordTransition t1 false false
          (applyBatch t1 s)).openStart = s.openStart := by
        rw [record_open_ff, applyBatch_openStart]
      have edl : (recordTransition t1 false false
          (applyBatch t1 s)).downs = s.downs := by
        rw [record_downs_ff, applyBatch_downs]
      have edt : downTime (recordTransition t1 false false
          (applyBatch t1 s)) = downTime s := by
        unfold downTime
        rw [edl]
      have eoc : openContrib (recordTransition t1 false false
          (applyBatch t1 s)) t1 = openContrib s t1 := by
        unfold openContrib
        rw [eol]
      refine ⟨?_, ?_, ?_, ?_, ?_, ?_, ?_, ?_, ?_, ?_, ?_, ?_, ?_⟩
      · rw [eol, recordTransition_available, inv.openIff, hb, ha]
      · intro w hw
        rw [eol] at hw
        exact le_trans (inv.openLe w hw) htle
      · intro x hx
        rw [candidates_record] at hx
        exact hcand2 x hx
      · rw [recordTransition_relA]
        exact pwA2
      · rw [recordTransition_relB]
        exact pwB2
      · rw [recordTransition_relC]
        exact pwC2
      · rw [recordTransition_badA]
        exact pwDA2
      · rw [recordTransition_badB]
        exact pwDB2
      · rw [recordTransition_badC]
        exact pwDC2
      · intro v hv x hx
        rw [recordTransition_aAvail] at hv
        rw [recordTransition_badA] at hx
        exact hfresh2 v hv x hx
      · rw [edt, eoc, availSlack_record, badTotal_record]
        omega
      · rw [edt, eoc, recordTransition_aAvail, recordTransition_badA]
        omega
      · rw [edl, eol, badTotal_record]
        have hlb := inv.lenBound
        omega
    -- before = false, after = true: close the open interval
    · have hsopen : s.openStart.isSome = true := by
        rw [inv.openIff, hb]
        rfl
      obtain ⟨v, hv⟩ := Option.isSome_iff_exists.mp hsopen
      have hvle : v ≤ t1 := le_trans (inv.openLe v hv) htle
      have hOCs : openContrib s t1 = t1 - v := by
        simp [openContrib, hv]
      have eol : (recordTransition t1 false true
          (applyBatch t1 s)).openStart = none := record_open_ft t1 _
      have edl : (recordTransition t1 false true
          (applyBatch t1 s)).downs = s.downs ++ [(v, t1)] := by
        rw [record_downs_ft, applyBatch_downs, applyBatch_openStart, hv]
        rfl
      have edt : downTime (recordTransition t1 false true
          (applyBatch t1 s)) = downTime s + (t1 - v) := by
        unfold downTime
        rw [edl]
        simp
      have eoc : openContrib (recordTransition t1 false true
          (applyBatch t1 s)) t1 = 0 := by
        unfold openContrib
        rw [eol]
      refine ⟨?_, ?_, ?_, ?_, ?_, ?_, ?_, ?_, ?_, ?_, ?_, ?_, ?_⟩
      · rw [eol, recordTransition_available, ha]
        rfl
      · intro w hw
        rw [eol] at hw
        cases hw
      · intro x hx
        rw [candidates_record] at hx
        exact hcand2 x hx
      · rw [recordTransition_relA]
        exact pwA2
      · rw [recordTransition_relB]
        exact pwB2
      · rw [recordTransition_relC]
        exact pwC2
      · rw [recordTransition_badA]
        exact pwDA2
      · rw [recordTransition_badB]
        exact pwDB2
      · rw [recordTransition_badC]
        exact pwDC2
      · intro w hw x hx
        rw [recordTransition_aAvail] at hw
        rw [recordTransition_badA] at hx
        exact hfresh2 w hw x hx
      · rw [edt, eoc, availSlack_record, badTotal_record]
        rw [hOCs] at hup1
        omega
      · rw [edt, eoc, recordTransition_aAvail, recordTransition_badA]
        rw [hOCs] at hdn1
        omega
      · rw [edl, eol, badTotal_record]
        have hlb := inv.lenBound
        rw [hv] at hlb
        simp only [Option.isSome_some, if_true, if_pos] at hlb
        simp only [List.length_append, List.length_cons, List.length_nil,
          Option.isSome_none, Bool.false_eq_true, if_false, if_neg,
          not_false_iff]
        omega
    -- before = true, after = false: open a new interval
    · have hsopen : s.openStart = none := by
        have hio := inv.openIff
        rw [hb] at hio
        cases hos : s.openStart with
        | none => rfl
        | some w =>
          rw [hos] at hio
          simp at hio
      have hOCs : openContrib s t1 = 0 := openContrib_none hsopen
      have hfired : s.badA.head? = some t1 ∨ s.badB.head? = some t1
          ∨ s.badC.head? = some t1 := by
        by_contra hno
        push_neg at hno
        have hid := applyBad_of_none t1 (applyTimers t1 (applyPlain t1 s))
          (by simpa using hno.1) (by simpa using hno.2.1)
          (by simpa using hno.2.2)
        have hava : (applyBatch t1 s).available = true := by
          unfold applyBatch
          rw [hid]
          exact applyTimers_avail_mono t1 hb
        rw [ha] at hava
        cases hava
      have hstrict : badTotal (applyBatch t1 s) + 1 ≤ badTotal s := by
        unfold applyBatch
        have h1 := badTotal_applyBad_fire t1
          (applyTimers t1 (applyPlain t1 s)) (by simpa using hfired)
        have h2 : badTotal (applyTimers t1 (applyPlain t1 s))
            = badTotal s := rfl
        omega
      have eol : (recordTransition t1 true false
          (applyBatch t1 s)).openStart = some t1 := record_open_tf t1 _
      have edl : (recordTransition t1 true false
          (applyBatch t1 s)).downs = s.downs := by
        rw [record_downs_tf, applyBatch_downs]
      have edt : downTime (recordTransition t1 true false
          (applyBatch t1 s)) = downTime s := by
        unfold downTime
        rw [edl]
      have eoc : openContrib (recordTransition t1 true false
          (applyBatch t1 s)) t1 = 0 := by
        unfold openContrib
        rw [eol]
        simp
      refine ⟨?_, ?_, ?_, ?_, ?_, ?_, ?_, ?_, ?_, ?_, ?_, ?_, ?_⟩
      · rw [eol, recordTransition_available, ha]
        rfl
      · intro w hw
        rw [eol] at hw
        cases hw
        exact le_refl t1
      · intro x hx
        rw [candidates_record] at hx
        exact hcand2 x hx
      · rw [recordTransition_relA]
        exact pwA2
      · rw [recordTransition_relB]
        exact pwB2
      · rw [recordTransition_relC]
        exact pwC2
      · rw [recordTransition_badA]
        exact pwDA2
      · rw [recordTransition_badB]
        exact pwDB2
      · rw [recordTransition_badC]
        exact pwDC2
      · intro w hw x hx
        rw [recordTransition_aAvail] at hw
        rw [recordTransition_badA] at hx
        exact hfresh2 w hw x hx
      · rw [edt, eoc, availSlack_record, badTotal_record]
        rw [hOCs] at hup1
        omega
      · rw [edt, eoc, recordTransition_aAvail, recordTransition_badA]
        rw [hOCs] at hdn1
        omega
      · rw [edl, eol, badTotal_record]
        have hlb := inv.lenBound
        rw [hsopen] at hlb
        simp only [Option.isSome_none, Bool.false_eq_true, if_false,
          if_neg, not_false_iff] at hlb
        simp only [Option.isSome_some, if_true, if_pos]
        omega
    -- before = true, after = true: no transition
    · have eol : (recordTransition t1 true true
          (applyBatch t1 s)).openStart = s.openStart := by
        rw [record_open_tt, applyBatch_openStart]
      have edl : (recordTransition t1 true true
          (applyBatch t1 s)).downs = s.downs := by
        rw [record_downs_tt, applyBatch_downs]
      have edt : downTime (recordTransition t1 true true
          (applyBatch t1 s)) = downTime s := by
        unfold downTime
        rw [edl]
      have eoc : openContrib (recordTransition t1 true true
          (applyBatch t1 s)) t1 = openContrib s t1 := by
        unfold openContrib
        rw [eol]
      refine ⟨?_, ?_, ?_, ?_, ?_, ?_, ?_, ?_, ?_, ?_, ?_, ?_, ?_⟩
      · rw [eol, recordTransition_available, inv.openIff, hb, ha]
      · intro w hw
        rw [eol] at hw
        exact le_trans (inv.openLe w hw) htle
      · intro x hx
        rw [candidates_record] at hx
        exact hcand2 x hx
      · rw [recordTransition_relA]
        exact pwA2
      · rw [recordTransition_relB]
        exact pwB2
      · rw [recordTransition_relC]
        exact pwC2
      · rw [recordTransition_badA]
        exact pwDA2
      · rw [recordTransition_badB]
        exact pwDB2
      · rw [recordTransition_badC]
        exact pwDC2
      · intro w hw x hx
        rw [recordTransition_aAvail] at hw
        rw [recordTransition_badA] at hx
        exact hfresh2 w hw x hx
      · rw [edt, eoc, availSlack_record, badTotal_record]
        omega
      · rw [edt, eoc, recordTransition_aAvail, recordTransition_badA]
        omega
      · rw [edl, eol, badTotal_record]
        have hlb := inv.lenBound
        omega

/-! ### From valid schedules to the invariant -/

/-- The contract of the schedule generator (section 8 of the design):
exactly `RELEASE_COUNT` release times in `[0, YEAR_TIME)`, pairwise more
than `MIN_TIME_BETWEEN_RELEASES` apart in ascending order, and exactly
`BAD_RELEASE_COUNT` strictly ascending bad releases drawn from the
schedule. -/
def ValidSchedule (rel bad : List ℕ) : Prop :=
  rel.length = RELEASE_COUNT
    ∧ (∀ x ∈ rel, x < YEAR_TIME)
    ∧ rel.Pairwise (fun x y => x + MIN_TIME_BETWEEN_RELEASES < y)
    ∧ bad.length = BAD_RELEASE_COUNT
    ∧ bad.Pairwise (· < ·)
    ∧ ∀ x ∈ bad, x ∈ rel

/-- A sorted selection from a spaced schedule is itself spaced. -/
theorem bad_pairwise_gap {rel bad : List ℕ}
    (hrel : rel.Pairwise (fun x y => x + MIN_TIME_BETWEEN_RELEASES < y))
    (hbad : bad.Pairwise (· < ·))
    (hmem : ∀ x ∈ bad, x ∈ rel) :
    bad.Pairwise (fun x y => x + MIN_TIME_BETWEEN_RELEASES < y) := by
  have hsym : rel.Pairwise (fun x y =>
      x + MIN_TIME_BETWEEN_RELEASES < y
        ∨ y + MIN_TIME_BETWEEN_RELEASES < x) :=
    hrel.imp (fun h => Or.inl h)
  have hpairs : ∀ x ∈ rel, ∀ y ∈ rel, x < y →
      x + MIN_TIME_BETWEEN_RELEASES < y := by
    intro x hx y hy hxy
    have := hsym.forall (fun a b hab => hab.symm) hx hy (by omega)
    omega
  refine hbad.imp_of_mem ?_
  intro a b ha hb hab
  exact hpairs a (hmem a ha) b (hmem b hb) hab

/-- The invariant holds at the initial state of a trial over valid
schedules. -/
theorem Inv_initial {aRel aBad bRel bBad cRel cBad : List ℕ}
    (hA : ValidSchedule aRel aBad) (hB : ValidSchedule bRel bBad)
    (hC : ValidSchedule cRel cBad) :
    Inv (initialState aRel aBad bRel bBad cRel cBad) 0 := by
  obtain ⟨hA1, hA2, hA3, hA4, hA5, hA6⟩ := hA
  obtain ⟨hB1, hB2, hB3, hB4, hB5, hB6⟩ := hB
  obtain ⟨hC1, hC2, hC3, hC4, hC5, hC6⟩ := hC
  refine ⟨rfl, ?_, ?_, ?_, ?_, ?_, ?_, ?_, ?_, ?_, ?_, ?_, ?_⟩
  · intro v hv
    cases hv
  · intro x hx
    omega
  · exact hA3.imp (fun h => by omega)
  · exact hB3.imp (fun h => by omega)
  · exact hC3.imp (fun h => by omega)
  · exact bad_pairwise_gap hA3 hA5 hA6
  · exact hB5.imp (fun h => by omega)
  · exact hC5.imp (fun h => by omega)
  · intro v hv
    cases hv
  · have e1 : downTime (initialState aRel aBad bRel bBad cRel cBad)
        = 0 := rfl
    have e2 : openContrib (initialState aRel aBad bRel bBad cRel cBad) 0
        = 0 := rfl
    have e3 : availSlack (initialState aRel aBad bRel bBad cRel cBad) 0
        = 0 := rfl
    have e4 : badTotal (initialState aRel aBad bRel bBad cRel cBad)
        = aBad.length + bBad.length + cBad.length := rfl
    rw [e1, e2, e3, e4, hA4, hB4, hC4]
    unfold BAD_RELEASE_COUNT
    omega
  · have e1 : downTime (initialState aRel aBad bRel bBad cRel cBad)
        = 0 := rfl
    have e2 : openContrib (initialState aRel aBad bRel bBad cRel cBad) 0
        = 0 := rfl
    have e3 : slack 0
        (initialState aRel aBad bRel bBad cRel cBad).aAvailableIn
        = 0 := rfl
    have e4 : (initialState aRel aBad bRel bBad cRel cBad).badA
        = aBad := rfl
    rw [e1, e2, e3, e4, hA4]
    unfold BAD_RELEASE_COUNT
    omega
  · have e1 : (initialState aRel aBad bRel bBad cRel cBad).downs
        = [] := rfl
    have e2 : (initialState aRel aBad bRel bBad cRel cBad).openStart
        = none := rfl
    have e4 : badTotal (initialState aRel aBad bRel bBad cRel cBad)
        = aBad.length + bBad.length + cBad.length := rfl
    rw [e1, e2, e4, hA4, hB4, hC4]
    unfold BAD_RELEASE_COUNT
    simp

/-- The invariant carries to the final state of a terminating run. -/
theorem simLoop_inv : ∀ (n : ℕ) {s : SimState} {t : ℕ} {f : SimState},
    Inv s t → simLoop n s = some f → ∃ u, Inv f u ∧ f.step = none := by
  intro n
  induction n with
  | zero =>
    intro s t f _ h
    cases h
  | succ n ih =>
    intro s t f inv h
    rw [simLoop] at h
    cases hs : s.step with
    | none =>
      rw [hs] at h
      cases h
      exact ⟨t, inv, hs⟩
    | some s1 =>
      rw [hs] at h
      obtain ⟨t1, _, inv1⟩ := Inv_step inv hs
      exact ih inv1 h

/-- The invariant holds at every state the event loop reaches. -/
theorem stepN_inv : ∀ (n : ℕ) {s : SimState} {t : ℕ}, Inv s t →
    ∃ u, Inv (stepN n s) u := by
  intro n
  induction n with
  | zero =>
    intro s t inv
    exact ⟨t, inv⟩
  | succ n ih =>
    intro s t inv
    rw [stepN]
    cases hs : s.step with
    | none => exact ⟨t, inv⟩
    | some s1 =>
      obtain ⟨t1, _, inv1⟩ := Inv_step inv hs
      exact ih inv1

/-- At loop exit every cursor is exhausted and every timer is unset. -/
theorem step_none_fields {f : SimState} (h : f.step = none) :
    f.badA = [] ∧ f.badB = [] ∧ f.badC = []
      ∧ f.aAvailableIn = none ∧ f.bAvailableIn = none
      ∧ f.cAvailableIn = none ∧ f.bCacheFullIn = none
      ∧ f.cCacheFullIn = none := by
  cases ht : nextEventTime f with
  | some t =>
    rw [SimState.step, ht] at h
    cases h
  | none =>
    have hempty : (candidates f).filterMap id = [] :=
      List.min?_eq_none_iff.mp ht
    rw [List.filterMap_eq_nil_iff] at hempty
    have hall : ∀ o ∈ candidates f, o = none := fun o ho => hempty o ho
    refine ⟨?_, ?_, ?_, ?_, ?_, ?_, ?_, ?_⟩
    · exact List.head?_eq_none_iff.mp (hall f.badA.head? (by simp [candidates]))
    · exact List.head?_eq_none_iff.mp (hall f.badB.head? (by simp [candidates]))
    · exact List.head?_eq_none_iff.mp (hall f.badC.head? (by simp [candidates]))
    · exact hall f.aAvailableIn (by simp [candidates])
    · exact hall f.bAvailableIn (by simp [candidates])
    · exact hall f.cAvailableIn (by simp [candidates])
    · exact hall f.bCacheFullIn (by simp [candidates])
    · exact hall f.cCacheFullIn (by simp [candidates])

/-! ### C2: per-trial downtime bounds -/

/-- C2: for every triple of schedules satisfying the generator contract,
one run of the trial simulator terminates and returns a total downtime
between `3 * 9 = 27` and `9 * 9 = 81` minutes inclusive, so the two debug
assertions on the per-trial downtime can never fire. -/
theorem c2_trial_downtime_bounds
    (aRel aBad bRel bBad cRel cBad : List ℕ)
    (hA : ValidSchedule aRel aBad) (hB : ValidSchedule bRel bBad)
    (hC : ValidSchedule cRel cBad) :
    BAD_RELEASE_COUNT * UNAVAILABLE_TIME_AFTER_BAD
        ≤ experiment aRel aBad bRel bBad cRel cBad
      ∧ experiment aRel aBad bRel bBad cRel cBad
        ≤ 3 * BAD_RELEASE_COUNT * UNAVAILABLE_TIME_AFTER_BAD := by
  obtain ⟨f, hf⟩ := simLoop_total
    (simMeasure (initialState aRel aBad bRel bBad cRel cBad) + 1)
    (initialState aRel aBad bRel bBad cRel cBad) (Nat.lt_succ_self _)
  have hexp : experiment aRel aBad bRel bBad cRel cBad = downTime f := by
    unfold experiment
    rw [hf]
  obtain ⟨u, invf, hstep⟩ := simLoop_inv _ (Inv_initial hA hB hC) hf
  obtain ⟨e1, e2, e3, e4, e5, e6, e7, e8⟩ := step_none_fields hstep
  have hav : f.available = true := by
    unfold SimState.available is_now_available
    rw [e4, e5, e6]
    rfl
  have hopen : f.openStart = none := by
    have hio := invf.openIff
    rw [hav] at hio
    cases ho : f.openStart with
    | none => rfl
    | some w =>
      rw [ho] at hio
      simp at hio
  have hUp := invf.phiUp
  have hDn := invf.phiDown
  rw [openContrib_none hopen] at hUp hDn
  unfold availSlack at hUp
  rw [e4, e5, e6, slack_none] at hUp
  rw [e4, slack_none] at hDn
  unfold badTotal at hUp
  rw [e1, e2, e3] at hUp
  rw [e1] at hDn
  simp only [List.length_nil] at hUp hDn
  rw [hexp]
  unfold BAD_RELEASE_COUNT UNAVAILABLE_TIME_AFTER_BAD
  omega

/-! ### C6: the downtime store never overflows -/

/-- C6: over valid schedules, at every state the event loop reaches, the
number of closed downtime intervals plus the currently open one never
exceeds 9, so in the fixed 9-entry Rust array every write lands at index
`downs_count ≤ 8` and is in bounds. -/
theorem c6_interval_store_bound
    (aRel aBad bRel bBad cRel cBad : List ℕ)
    (hA : ValidSchedule aRel aBad) (hB : ValidSchedule bRel bBad)
    (hC : ValidSchedule cRel cBad) (n : ℕ) :
    (stepN n (initialState aRel aBad bRel bBad cRel cBad)).downs.length
        + (if (stepN n (initialState aRel aBad bRel bBad
            cRel cBad)).openStart.isSome then 1 else 0)
      ≤ 3 * BAD_RELEASE_COUNT := by
  obtain ⟨u, invn⟩ := stepN_inv n (Inv_initial hA hB hC)
  have := invn.lenBound
  unfold BAD_RELEASE_COUNT
  omega

/-- Witness for C2 at a concrete valid schedule triple: thirty releases
at minutes 0, 100, ..., 2900 with bad releases at 0, 100 and 200 for all
three nodes. -/
theorem c2_witness :
    BAD_RELEASE_COUNT * UNAVAILABLE_TIME_AFTER_BAD
        ≤ experiment
          [0, 100, 200, 300, 400, 500, 600, 700, 800, 900, 1000, 1100, 1200, 1300, 1400, 1500, 1600, 1700, 1800, 1900, 2000, 2100, 2200, 2300, 2400, 2500, 2600, 2700, 2800, 2900]
          [0, 100, 200]
          [0, 100, 200, 300, 400, 500, 600, 700, 800, 900, 1000, 1100, 1200, 1300, 1400, 1500, 1600, 1700, 1800, 1900, 2000, 2100, 2200, 2300, 2400, 2500, 2600, 2700, 2800, 2900]
          [0, 100, 200]
          [0, 100, 200, 300, 400, 500, 600, 700, 800, 900, 1000, 1100, 1200, 1300, 1400, 1500, 1600, 1700, 1800, 1900, 2000, 2100, 2200, 2300, 2400, 2500, 2600, 2700, 2800, 2900]
          [0, 100, 200]
      ∧ experiment
          [0, 100, 200, 300, 400, 500, 600, 700, 800, 900, 1000, 1100, 1200, 1300, 1400, 1500, 1600, 1700, 1800, 1900, 2000, 2100, 2200, 2300, 2400, 2500, 2600, 2700, 2800, 2900]
          [0, 100, 200]
          [0, 100, 200, 300, 400, 500, 600, 700, 800, 900, 1000, 1100, 1200, 1300, 1400, 1500, 1600, 1700, 1800, 1900, 2000, 2100, 2200, 2300, 2400, 2500, 2600, 2700, 2800, 2900]
          [0, 100, 200]
          [0, 100, 200, 300, 400, 500, 600, 700, 800, 900, 1000, 1100, 1200, 1300, 1400, 1500, 1600, 1700, 1800, 1900, 2000, 2100, 2200, 2300, 2400, 2500, 2600, 2700, 2800, 2900]
          [0, 100, 200]
        ≤ 3 * BAD_RELEASE_COUNT * UNAVAILABLE_TIME_AFTER_BAD :=
  c2_trial_downtime_bounds _ _ _ _ _ _
    (by unfold ValidSchedule; decide) (by unfold ValidSchedule; decide)
    (by unfold ValidSchedule; decide)

/-- Witness for C6 at the same concrete schedule triple, five iterations
into the loop. -/
theorem c6_witness :
    (stepN 5 (initialState
        [0, 100, 200, 300, 400, 500, 600, 700, 800, 900, 1000, 1100, 1200, 1300, 1400, 1500, 1600, 1700, 1800, 1900, 2000, 2100, 2200, 2300, 2400, 2500, 2600, 2700, 2800, 2900]
        [0, 100, 200]
        [0, 100, 200, 300, 400, 500, 600, 700, 800, 900, 1000, 1100, 1200, 1300, 1400, 1500, 1600, 1700, 1800, 1900, 2000, 2100, 2200, 2300, 2400, 2500, 2600, 2700, 2800, 2900]
        [0, 100, 200]
        [0, 100, 200, 300, 400, 500, 600, 700, 800, 900, 1000, 1100, 1200, 1300, 1400, 1500, 1600, 1700, 1800, 1900, 2000, 2100, 2200, 2300, 2400, 2500, 2600, 2700, 2800, 2900]
        [0, 100, 200])).downs.length
      + (if (stepN 5 (initialState
          [0, 100, 200, 300, 400, 500, 600, 700, 800, 900, 1000, 1100, 1200, 1300, 1400, 1500, 1600, 1700, 1800, 1900, 2000, 2100, 2200, 2300, 2400, 2500, 2600, 2700, 2800, 2900]
          [0, 100, 200]
          [0, 100, 200, 300, 400, 500, 600, 700, 800, 900, 1000, 1100, 1200, 1300, 1400, 1500, 1600, 1700, 1800, 1900, 2000, 2100, 2200, 2300, 2400, 2500, 2600, 2700, 2800, 2900]
          [0, 100, 200]
          [0, 100, 200, 300, 400, 500, 600, 700, 800, 900, 1000, 1100, 1200, 1300, 1400, 1500, 1600, 1700, 1800, 1900, 2000, 2100, 2200, 2300, 2400, 2500, 2600, 2700, 2800, 2900]
          [0, 100, 200])).openStart.isSome then 1 else 0)
      ≤ 3 * BAD_RELEASE_COUNT :=
  c6_interval_store_bound _ _ _ _ _ _
    (by unfold ValidSchedule; decide) (by unfold ValidSchedule; decide)
    (by unfold ValidSchedule; decide) 5

/-! ### The Monte Carlo aggregator of `fn main` (lines 197-215) -/

/-- Embedding of the accumulation in `fn main` (lines 201-203): the
per-trial downtimes, one per element of the iteration space, summed into
a single integer accumulator.  `results i` is the downtime of trial
`i`. -/
def unavailable_sum (results : ℕ → ℕ) : ℕ :=
  ((List.range EXPERIMENT_COUNT).map results).sum

/-- Embedding of `Ratio::new(unavailable_sum, EXPERIMENT_COUNT)` (line
205): the exact rational average downtime. -/
def average_unavailable (results : ℕ → ℕ) : ℚ :=
  (unavailable_sum results : ℚ) / (EXPERIMENT_COUNT : ℚ)

/-- Embedding of the percentage computation (lines 211-213):
`100 * (1 - average / YEAR_TIME)` over exact rationals, before any
conversion to floating point. -/
def percent_available (results : ℕ → ℕ) : ℚ :=
  100 * (1 - average_unavailable results / (YEAR_TIME : ℚ))

theorem list_range_map_sum (n : ℕ) (f : ℕ → ℕ) :
    ((List.range n).map f).sum = ∑ i in Finset.range n, f i := by
  induction n with
  | zero => rfl
  | succ n ih =>
    rw [List.range_succ, Finset.sum_range_succ, List.map_append,
      List.sum_append, ih]
    simp

/-- C7: the aggregator runs exactly 10,000,000 trials, sums the
per-trial downtimes into one integer accumulator, keeps the average as
the exact rational sum-over-count (no rounding: multiplying back by the
count recovers the sum exactly), and computes the availability
percentage as `100 * (1 - average / YEAR_TIME)` in exact rational
arithmetic. -/
theorem c7_aggregator :
    EXPERIMENT_COUNT = 10000000
    ∧ (∀ results : ℕ → ℕ,
        unavailable_sum results
          = ∑ i in Finset.range EXPERIMENT_COUNT, results i)
    ∧ (∀ results : ℕ → ℕ,
        average_unavailable results * (EXPERIMENT_COUNT : ℚ)
          = (unavailable_sum results : ℚ))
    ∧ (∀ results : ℕ → ℕ,
        percent_available results
          = 100 * (1 - (unavailable_sum results : ℚ)
              / ((EXPERIMENT_COUNT : ℚ) * (YEAR_TIME : ℚ)))) := by
  refine ⟨rfl, fun results => ?_, fun results => ?_, fun results => ?_⟩
  · exact list_range_map_sum EXPERIMENT_COUNT results
  · unfold average_unavailable
    rw [div_mul_cancel₀]
    norm_num [EXPERIMENT_COUNT]
  · unfold percent_available average_unavailable
    rw [div_div]

/-! ### C9: the rejection-sampling loop has no attempt bound -/

/-- On the constant-zero stream the rejection loop never accepts a
second time: after the first acceptance every further draw repeats an
already accepted value and is rejected. -/
theorem choiceGo_zero_stuck : ∀ (fuel pos : ℕ),
    choiceGo (fun _ => 0) fuel pos (RELEASE_COUNT - 1) [0] = none := by
  intro fuel
  induction fuel with
  | zero =>
    intro pos
    rfl
  | succ fuel ih =>
    intro pos
    rw [show RELEASE_COUNT - 1 = 28 + 1 from rfl, choiceGo]
    rw [if_neg (by simp [is_correct_time_to_append,
      MIN_TIME_BETWEEN_RELEASES, Nat.dist])]
    exact ih (pos + 1)

/-- C9, counterexample: the claim that the schedule generator carries a
bounded attempt count and terminates on every random stream is false on
the code: on the constant-zero stream the rejection loop exhausts every
fuel budget without producing a schedule (and the source contains no
"cannot satisfy spacing constraint" failure at all: its `loop` at lines
23-28 has no exit besides acceptance). -/
theorem c9_counterexample :
    ¬ ∃ fuel : ℕ, (choice_times_to_releases (fun _ => 0) fuel).isSome
      = true := by
  rintro ⟨fuel, hf⟩
  cases fuel with
  | zero =>
    rw [choice_times_to_releases] at hf
    cases hf
  | succ fuel =>
    rw [choice_times_to_releases] at hf
    rw [show RELEASE_COUNT = 29 + 1 from rfl, choiceGo] at hf
    rw [if_pos (by decide)] at hf
    rw [show ([] : List ℕ) ++ [0 % YEAR_TIME] = [0] from by decide] at hf
    have hstuck := choiceGo_zero_stuck fuel 1
    rw [show RELEASE_COUNT - 1 = 29 from rfl] at hstuck
    rw [hstuck] at hf
    cases hf

/-- C9, amended: the rejection-sampling loop of the generator carries no
attempt bound and no failure path; it terminates only when the random
stream eventually supplies spacing-valid candidates, and on a stream
that never does (the constant-zero stream, once a time has been
accepted) it runs forever: every fuel budget is exhausted with no
result. -/
theorem c9_unbounded_rejection_loop :
    ∀ fuel : ℕ, choice_times_to_releases (fun _ => 0) (fuel + 1)
      = none := by
  intro fuel
  rw [choice_times_to_releases]
  rw [show RELEASE_COUNT = 29 + 1 from rfl, choiceGo]
  rw [if_pos (by decide)]
  rw [show ([] : List ℕ) ++ [0 % YEAR_TIME] = [0] from by decide]
  have hstuck := choiceGo_zero_stuck fuel 1
  rw [show RELEASE_COUNT - 1 = 29 from rfl] at hstuck
  exact hstuck

/-! ### C5: properties of the schedule generator -/

theorem choiceGo_props (stream : ℕ → ℕ) :
    ∀ (fuel pos k : ℕ) (acc l : List ℕ) (p : ℕ),
    (∀ x ∈ acc, x < YEAR_TIME) →
    acc.Pairwise (fun x y => MIN_TIME_BETWEEN_RELEASES < Nat.dist x y) →
    choiceGo stream fuel pos k acc = some (l, p) →
    l.length = acc.length + k ∧ (∀ x ∈ l, x < YEAR_TIME)
      ∧ l.Pairwise (fun x y => MIN_TIME_BETWEEN_RELEASES < Nat.dist x y)
    := by
  intro fuel
  induction fuel with
  | zero =>
    intro pos k acc l p hacc hpw h
    cases k with
    | zero =>
      simp only [choiceGo, Option.some.injEq, Prod.mk.injEq] at h
      obtain ⟨h1, h2⟩ := h
      subst h1
      exact ⟨by simp, hacc, hpw⟩
    | succ k =>
      simp only [choiceGo] at h
      cases h
  | succ fuel ih =>
    intro pos k acc l p hacc hpw h
    cases k with
    | zero =>
      simp only [choiceGo, Option.some.injEq, Prod.mk.injEq] at h
      obtain ⟨h1, h2⟩ := h
      subst h1
      exact ⟨by simp, hacc, hpw⟩
    | succ k =>
      rw [choiceGo] at h
      by_cases hc : is_correct_time_to_append acc (stream pos % YEAR_TIME)
          = true
      · rw [if_pos hc] at h
        have hmem : ∀ x ∈ acc ++ [stream pos % YEAR_TIME],
            x < YEAR_TIME := by
          intro x hx
          rcases List.mem_append.mp hx with hx | hx
          · exact hacc x hx
          · simp only [List.mem_singleton] at hx
            subst hx
            exact Nat.mod_lt _ (by decide)
        have hpw2 : (acc ++ [stream pos % YEAR_TIME]).Pairwise
            (fun x y => MIN_TIME_BETWEEN_RELEASES < Nat.dist x y) := by
          rw [List.pairwise_append]
          refine ⟨hpw, by simp, ?_⟩
          intro a ha b hb
          simp only [List.mem_singleton] at hb
          subst hb
          have h1 := List.all_eq_true.mp hc a ha
          simp only [decide_eq_true_eq] at h1
          rw [Nat.dist_comm] at h1
          exact h1
        obtain ⟨hl1, hl2, hl3⟩ := ih (pos + 1) k _ l p hmem hpw2 h
        refine ⟨?_, hl2, hl3⟩
        rw [hl1]
        simp only [List.length_append, List.length_singleton]
        omega
      · rw [if_neg hc] at h
        exact ih (pos + 1) (k + 1) acc l p hacc hpw h

theorem choice_times_props {stream : ℕ → ℕ} {fuel : ℕ} {l : List ℕ}
    {p : ℕ} (h : choice_times_to_releases stream fuel = some (l, p)) :
    l.length = RELEASE_COUNT ∧ (∀ x ∈ l, x < YEAR_TIME)
      ∧ l.Pairwise (fun x y => MIN_TIME_BETWEEN_RELEASES < Nat.dist x y)
    := by
  have := choiceGo_props stream fuel 0 RELEASE_COUNT [] l p
    (by simp) (by simp) h
  simpa using this

theorem pairwise_ne_set : ∀ (buf : List ℕ) (k x : ℕ),
    buf.Pairwise (· ≠ ·) → (∀ v ∈ buf, ¬ v = x) →
    (buf.set k x).Pairwise (· ≠ ·) := by
  intro buf
  induction buf with
  | nil =>
    intro k x _ _
    simp
  | cons b bs ih =>
    intro k x hpw hni
    cases k with
    | zero =>
      simp only [List.set]
      rw [List.pairwise_cons] at hpw ⊢
      refine ⟨?_, hpw.2⟩
      intro y hy he
      exact hni y (by simp [hy]) he.symm
    | succ k =>
      simp only [List.set]
      rw [List.pairwise_cons] at hpw ⊢
      refine ⟨?_, ih k x hpw.2 (fun v hv => hni v (by simp [hv]))⟩
      intro y hy
      rcases List.mem_or_eq_of_mem_set hy with hy | hy
      · exact hpw.1 y hy
      · subst hy
        exact fun he => hni b (by simp) he

theorem reservoirGo_props (stream : ℕ → ℕ) (rel : List ℕ) :
    ∀ (xs : List ℕ) (m pos : ℕ) (buf : List ℕ),
    buf.length = BAD_RELEASE_COUNT →
    buf.Pairwise (· ≠ ·) →
    (∀ v ∈ buf, v ∈ rel) →
    xs.Pairwise (· ≠ ·) →
    (∀ v ∈ xs, v ∈ rel) →
    (∀ v ∈ buf, v ∉ xs) →
    (reservoirGo stream xs m pos buf).length = BAD_RELEASE_COUNT
      ∧ (reservoirGo stream xs m pos buf).Pairwise (· ≠ ·)
      ∧ (∀ v ∈ reservoirGo stream xs m pos buf, v ∈ rel) := by
  intro xs
  induction xs with
  | nil =>
    intro m pos buf h1 h2 h3 _ _ _
    exact ⟨h1, h2, h3⟩
  | cons x xs ih =>
    intro m pos buf h1 h2 h3 hxs hxsrel hdisj
    have hxxs := List.pairwise_cons.mp hxs
    have hxnotin : x ∉ xs := fun hmem => (hxxs.1 x hmem) rfl
    rw [reservoirGo]
    by_cases hk : stream pos % (m + 1) < BAD_RELEASE_COUNT
    · simp only [if_pos hk]
      apply ih (m + 1) (pos + 1)
      · rw [List.length_set]
        exact h1
      · exact pairwise_ne_set buf _ x h2
          (fun v hv hvx => hdisj v hv (by simp [hvx]))
      · intro v hv
        rcases List.mem_or_eq_of_mem_set hv with hv | hv
        · exact h3 v hv
        · subst hv
          exact hxsrel v (by simp)
      · exact hxxs.2
      · intro v hv
        exact hxsrel v (by simp [hv])
      · intro v hv
        rcases List.mem_or_eq_of_mem_set hv with hv | hv
        · exact fun hmem => hdisj v hv (by simp [hmem])
        · subst hv
          exact hxnotin
    · simp only [if_neg hk]
      apply ih (m + 1) (pos + 1) buf h1 h2 h3 hxxs.2
      · intro v hv
        exact hxsrel v (by simp [hv])
      · intro v hv
        exact fun hmem => hdisj v hv (by simp [hmem])

theorem choice_bad_props (stream : ℕ → ℕ) (pos : ℕ) {rel : List ℕ}
    (hlen : rel.length = RELEASE_COUNT) (hne : rel.Pairwise (· ≠ ·)) :
    (choice_bad_times_to_releases stream pos rel).length
        = BAD_RELEASE_COUNT
      ∧ (choice_bad_times_to_releases stream pos rel).Pairwise (· ≠ ·)
      ∧ ∀ v ∈ choice_bad_times_to_releases stream pos rel, v ∈ rel := by
  unfold choice_bad_times_to_releases
  have hsplit : rel.take BAD_RELEASE_COUNT ++ rel.drop BAD_RELEASE_COUNT
      = rel := List.take_append_drop _ _
  have hpw : (rel.take BAD_RELEASE_COUNT
      ++ rel.drop BAD_RELEASE_COUNT).Pairwise (· ≠ ·) := by
    rw [hsplit]
    exact hne
  rw [List.pairwise_append] at hpw
  apply reservoirGo_props
  · rw [List.length_take, hlen]
    decide
  · exact hpw.1
  · intro v hv
    exact List.take_subset _ _ hv
  · exact hpw.2.1
  · intro v hv
    exact List.drop_subset _ _ hv
  · intro v hv hvd
    exact hpw.2.2 v hv v hvd rfl

theorem sorted_dist_gap {l : List ℕ}
    (hs : l.Pairwise (· ≤ ·))
    (hd : l.Pairwise (fun x y => MIN_TIME_BETWEEN_RELEASES < Nat.dist x y)) :
    l.Pairwise (fun x y => x + MIN_TIME_BETWEEN_RELEASES < y) := by
  refine (hs.and hd).imp ?_
  intro a b hab
  obtain ⟨h1, h2⟩ := hab
  unfold Nat.dist at h2
  omega

/-- C5: whenever the (fuelled) generator succeeds, the schedule has
exactly 30 release times, each in `[0, YEAR_TIME)`, strictly ascending
with every pair more than 60 minutes apart, and the bad subset has
exactly 3 distinct values, each a member of the schedule, strictly
ascending. -/
theorem c5_schedule_generator (stream : ℕ → ℕ) (fuel : ℕ)
    (rel bad : List ℕ)
    (h : create_releases_times stream fuel = some (rel, bad)) :
    rel.length = RELEASE_COUNT
      ∧ (∀ x ∈ rel, x < YEAR_TIME)
      ∧ rel.Pairwise (fun x y => x + MIN_TIME_BETWEEN_RELEASES < y)
      ∧ bad.length = BAD_RELEASE_COUNT
      ∧ bad.Pairwise (· < ·)
      ∧ (∀ x ∈ bad, x ∈ rel) := by
  unfold create_releases_times at h
  cases hc : choice_times_to_releases stream fuel with
  | none =>
    rw [hc] at h
    cases h
  | some rp =>
    obtain ⟨raw, pos⟩ := rp
    rw [hc] at h
    simp only [Option.some.injEq, Prod.mk.injEq] at h
    obtain ⟨hrel, hbad⟩ := h
    obtain ⟨hlen, hbound, hdistp⟩ := choice_times_props hc
    have hraw_ne : raw.Pairwise (· ≠ ·) := by
      refine hdistp.imp ?_
      intro a b hd he
      subst he
      rw [Nat.dist_self] at hd
      exact absurd hd (by decide)
    obtain ⟨hblen, hbne, hbmem⟩ := choice_bad_props stream pos hlen hraw_ne
    have hpermR := List.mergeSort_perm raw (fun a b => decide (a ≤ b))
    have hpermB := List.mergeSort_perm
      (choice_bad_times_to_releases stream pos raw)
      (fun a b => decide (a ≤ b))
    have hsortR : (raw.mergeSort (fun a b => decide (a ≤ b))).Pairwise
        (· ≤ ·) := List.sorted_mergeSort' raw
    have hsortB : ((choice_bad_times_to_releases stream pos
        raw).mergeSort (fun a b => decide (a ≤ b))).Pairwise (· ≤ ·) :=
      List.sorted_mergeSort' _
    subst hrel
    subst hbad
    refine ⟨?_, ?_, ?_, ?_, ?_, ?_⟩
    · rw [hpermR.length_eq]
      exact hlen
    · intro x hx
      exact hbound x (hpermR.mem_iff.mp hx)
    · have hdist2 : (raw.mergeSort
          (fun a b => decide (a ≤ b))).Pairwise
          (fun x y => MIN_TIME_BETWEEN_RELEASES < Nat.dist x y) := by
        rw [hpermR.pairwise_iff (fun hab => by rw [Nat.dist_comm]; exact hab)]
        exact hdistp
      exact sorted_dist_gap hsortR hdist2
    · rw [hpermB.length_eq]
      exact hblen
    · have hne2 : ((choice_bad_times_to_releases stream pos
          raw).mergeSort (fun a b => decide (a ≤ b))).Pairwise (· ≠ ·)
          := by
        rw [hpermB.pairwise_iff (fun hab => hab.symm)]
        exact hbne
      exact (hsortB.and hne2).imp
        (fun hab => lt_of_le_of_ne hab.1 hab.2)
    · intro x hx
      have hx1 := hbmem x (hpermB.mem_iff.mp hx)
      exact hpermR.mem_iff.mpr hx1

/-- Witness for C5: the stream drawing 0, 100, 200, ... accepts its
first thirty draws, giving the schedule 0, 100, ..., 2900 with bad
subset 500, 2200, 2500. -/
theorem c5_witness :
    create_releases_times (fun n => n * 100) 30
        = some ([0, 100, 200, 300, 400, 500, 600, 700, 800, 900, 1000, 1100, 1200, 1300, 1400, 1500, 1600, 1700, 1800, 1900, 2000, 2100, 2200, 2300, 2400, 2500, 2600, 2700, 2800, 2900],
          [500, 2200, 2500])
      ∧ ([0, 100, 200, 300, 400, 500, 600, 700, 800, 900, 1000, 1100, 1200, 1300, 1400, 1500, 1600, 1700, 1800, 1900, 2000, 2100, 2200, 2300, 2400, 2500, 2600, 2700, 2800, 2900] : List ℕ).length = RELEASE_COUNT
      ∧ (∀ x ∈ ([0, 100, 200, 300, 400, 500, 600, 700, 800, 900, 1000, 1100, 1200, 1300, 1400, 1500, 1600, 1700, 1800, 1900, 2000, 2100, 2200, 2300, 2400, 2500, 2600, 2700, 2800, 2900] : List ℕ), x < YEAR_TIME)
      ∧ ([0, 100, 200, 300, 400, 500, 600, 700, 800, 900, 1000, 1100, 1200, 1300, 1400, 1500, 1600, 1700, 1800, 1900, 2000, 2100, 2200, 2300, 2400, 2500, 2600, 2700, 2800, 2900] : List ℕ).Pairwise
          (fun x y => x + MIN_TIME_BETWEEN_RELEASES < y)
      ∧ ([500, 2200, 2500] : List ℕ).length = BAD_RELEASE_COUNT
      ∧ ([500, 2200, 2500] : List ℕ).Pairwise (· < ·)
      ∧ (∀ x ∈ ([500, 2200, 2500] : List ℕ),
          x ∈ ([0, 100, 200, 300, 400, 500, 600, 700, 800, 900, 1000, 1100, 1200, 1300, 1400, 1500, 1600, 1700, 1800, 1900, 2000, 2100, 2200, 2300, 2400, 2500, 2600, 2700, 2800, 2900] : List ℕ)) := by
  have hmain : create_releases_times (fun n => n * 100) 30
      = some ([0, 100, 200, 300, 400, 500, 600, 700, 800, 900, 1000, 1100, 1200, 1300, 1400, 1500, 1600, 1700, 1800, 1900, 2000, 2100, 2200, 2300, 2400, 2500, 2600, 2700, 2800, 2900],
        [500, 2200, 2500]) := by
    unfold create_releases_times
    rw [show choice_times_to_releases (fun n => n * 100) 30
      = some ([0, 100, 200, 300, 400, 500, 600, 700, 800, 900, 1000, 1100, 1200, 1300, 1400, 1500, 1600, 1700, 1800, 1900, 2000, 2100, 2200, 2300, 2400, 2500, 2600, 2700, 2800, 2900], 30) from by decide]
    simp only
    rw [show choice_bad_times_to_releases (fun n => n * 100) 30
        [0, 100, 200, 300, 400, 500, 600, 700, 800, 900, 1000, 1100, 1200, 1300, 1400, 1500, 1600, 1700, 1800, 1900, 2000, 2100, 2200, 2300, 2400, 2500, 2600, 2700, 2800, 2900]
      = [2500, 2200, 500] from by decide]
    rw [List.mergeSort_eq_insertionSort, List.mergeSort_eq_insertionSort]
    decide
  refine ⟨hmain, ?_⟩
  have h := c5_schedule_generator (fun n => n * 100) 30
    [0, 100, 200, 300, 400, 500, 600, 700, 800, 900, 1000, 1100, 1200, 1300, 1400, 1500, 1600, 1700, 1800, 1900, 2000, 2100, 2200, 2300, 2400, 2500, 2600, 2700, 2800, 2900]
    [500, 2200, 2500] hmain
  exact h

end Godevmath
